import Mathlib

/-!
# Verification of the FAK path-tracing engine

Shallow embedding of the control-plane path tracer:
* data model from `src/pathtracer/models.py`
* IP utilities from `src/services/pathtrace-api/pathtracer/utils/ip_utils.py`
  (IPv4 dotted-quad / prefix-length semantics of Python's `ipaddress`)
* inventory and subnet index from `src/services/pathtrace-api/pathtracer/discovery.py`
* the orchestrator walk from `src/services/pathtrace-api/pathtracer/orchestrator.py`
* the action normalisation of the firewall parsers and the Arista rate/utilisation
  arithmetic.

Device drivers perform network I/O; the orchestrator's `_query_device` is therefore
modelled as an oracle `query` supplied by the environment, returning either a
`HopQueryResult` or a raised exception message (`Except String`), exactly the two
outcomes the orchestrator distinguishes.  Wall-clock time is abstracted by an
`elapsed_ms` value carried by the environment.
-/

namespace PathTrace

/-! ## Data model (src/pathtracer/models.py) -/

/-- `NetworkDevice` dataclass (models.py lines 60-80). -/
structure NetworkDevice where
  hostname : String
  management_ip : String
  vendor : String := ""
  site : Option String := none
  device_type : String := "unknown"
  credentials_ref : String := "default"
  logical_contexts : List String := ["global"]
  subnets : List String := []
  default_context : String := "global"
  deriving Repr, DecidableEq, Inhabited

/-- `NetworkDevice.__eq__` (models.py lines 77-80): equality compares
the management IP only. -/
def NetworkDevice.pyEq (d1 d2 : NetworkDevice) : Bool :=
  d1.management_ip == d2.management_ip

/-- The tuple hashed by `NetworkDevice.__hash__` (models.py lines 74-75):
`hash((self.hostname, self.management_ip))`. -/
def NetworkDevice.hashInput (d : NetworkDevice) : String × String :=
  (d.hostname, d.management_ip)

/-- `RouteEntry` dataclass (models.py lines 83-99). -/
structure RouteEntry where
  destination : String
  next_hop : String
  next_hop_type : String
  outgoing_interface : Option String := none
  protocol : String := "unknown"
  logical_context : String := "global"
  metric : Int := 0
  preference : Int := 0
  raw_output : String := ""
  deriving Repr, DecidableEq, Inhabited

/-- `RouteEntry.is_destination_reached` (models.py lines 96-99). -/
def RouteEntry.is_destination_reached (r : RouteEntry) (target_ip : String) : Bool :=
  (["connected", "local"].contains r.next_hop_type) || r.next_hop == target_ip

/-- `PolicyResult` dataclass (models.py lines 157-169). -/
structure PolicyResult where
  rule_name : String
  rule_position : Int
  action : String
  source_zone : String
  dest_zone : String
  source_addresses : List String
  dest_addresses : List String
  services : List String
  logging : Bool
  raw_output : String := ""
  deriving Repr, DecidableEq, Inhabited

/-- `NatTranslation` dataclass (models.py lines 172-179). -/
structure NatTranslation where
  original_ip : String
  original_port : Option String
  translated_ip : String
  translated_port : Option String
  nat_rule_name : String := ""
  deriving Repr, DecidableEq, Inhabited

/-- `NatResult` dataclass (models.py lines 182-186). -/
structure NatResult where
  snat : Option NatTranslation := none
  dnat : Option NatTranslation := none
  deriving Repr, DecidableEq, Inhabited

/-- `InterfaceDetail` dataclass (models.py lines 189-201); floats as ℚ. -/
structure InterfaceDetail where
  name : String
  description : String := ""
  status : String := "unknown"
  speed : String := ""
  utilisation_in_pct : Option ℚ := none
  utilisation_out_pct : Option ℚ := none
  errors_in : Int := 0
  errors_out : Int := 0
  discards_in : Int := 0
  discards_out : Int := 0
  deriving Repr, DecidableEq, Inhabited

/-- `PathStatus` enum (models.py lines 40-49). -/
inductive PathStatus where
  | complete
  | incomplete
  | error
  | loop_detected
  | blackholed
  | max_hops_exceeded
  | needs_input
  | ambiguous_hop
  deriving Repr, DecidableEq, Inhabited

/-- `PathHop` dataclass (models.py lines 102-118).  `lookup_time_ms` is kept but
time is not modelled (always 0). -/
structure PathHop where
  sequence : Nat
  device : NetworkDevice
  ingress_interface : Option String := none
  egress_interface : Option String := none
  logical_context : String := "global"
  route_used : Option RouteEntry := none
  lookup_time_ms : ℚ := 0
  notes : String := ""
  resolve_status : Option String := none
  ingress_detail : Option InterfaceDetail := none
  egress_detail : Option InterfaceDetail := none
  policy_result : Option PolicyResult := none
  nat_result : Option NatResult := none
  deriving Repr, DecidableEq, Inhabited

/-- One serialised candidate, as produced by `PathTracer._serialize_candidates`
(orchestrator.py lines 399-404). -/
structure CandidateInfo where
  hostname : String
  management_ip : String
  site : Option String
  vendor : String
  deriving Repr, DecidableEq, Inhabited

/-- `PathTracer._serialize_candidates` (orchestrator.py lines 399-404). -/
def serializeCandidates (candidates : List NetworkDevice) : List CandidateInfo :=
  candidates.map fun c => ⟨c.hostname, c.management_ip, c.site, c.vendor⟩

/-- The two metadata keys the orchestrator writes into `TracePath.metadata`
(`'candidates'` and `'ambiguous_hop_sequence'`); the Python field is an untyped
dict, modelled by its two used keys, `none` meaning "key absent". -/
structure TraceMetadata where
  candidates : Option (List CandidateInfo) := none
  ambiguous_hop_sequence : Option Nat := none
  deriving Repr, DecidableEq, Inhabited

/-- `TracePath` dataclass (models.py lines 125-146).  `total_time_ms` is an
`Option` so that "total elapsed time is set" is observable (Python initialises
it to `0.0` and overwrites it in the `finally` block). -/
structure TracePath where
  source_ip : String
  destination_ip : String
  hops : List PathHop := []
  status : PathStatus := .incomplete
  error_message : Option String := none
  total_time_ms : Option ℚ := none
  metadata : TraceMetadata := {}
  deriving Repr, DecidableEq, Inhabited

/-- `TracePath.add_hop` (models.py lines 136-138). -/
def TracePath.add_hop (p : TracePath) (h : PathHop) : TracePath :=
  { p with hops := p.hops ++ [h] }

/-- `TracePath.hop_count` (models.py lines 144-146). -/
def TracePath.hop_count (p : TracePath) : Nat :=
  p.hops.length

/-- `ResolveResult` (models.py lines 149-154) together with `ResolveStatus`
(lines 52-57): the dataclass invariant "`device` is set exactly on the two
resolved statuses" is captured by the constructors, matching the four
construction sites in `PathTracer._resolve_device`. -/
inductive ResolveResult where
  | notFound
  | resolved (device : NetworkDevice) (candidates : List NetworkDevice)
  | resolvedBySite (device : NetworkDevice) (candidates : List NetworkDevice)
  | ambiguous (candidates : List NetworkDevice)
  deriving Repr, DecidableEq

/-- `HopQueryResult` dataclass (models.py lines 204-211). -/
structure HopQueryResult where
  route : Option RouteEntry
  egress_detail : Option InterfaceDetail := none
  ingress_detail : Option InterfaceDetail := none
  policy_result : Option PolicyResult := none
  nat_result : Option NatResult := none
  deriving Repr, DecidableEq, Inhabited

/-! ## IP utilities (utils/ip_utils.py, IPv4 semantics of Python `ipaddress`) -/

/-- Split a character list on a separator (the behaviour of Python
`str.split(sep)` for a one-character separator); written structurally so that
it evaluates inside the kernel. -/
def splitOnChar (sep : Char) : List Char → List (List Char)
  | [] => [[]]
  | c :: rest =>
    let r := splitOnChar sep rest
    if c = sep then [] :: r
    else
      match r with
      | [] => [[c]]
      | g :: gs => (c :: g) :: gs

/-- Decimal value of a digit string: all characters must be digits. -/
def decimalValue (l : List Char) : Option Nat :=
  if l.all Char.isDigit then
    some (l.foldl (fun acc c => acc * 10 + (c.toNat - 48)) 0)
  else none

/-- One dotted-quad octet: decimal, 0-255, no leading zeros
(Python `ipaddress` rejects leading zeros). -/
def parseOctet (l : List Char) : Option Nat :=
  match l with
  | [] => none
  | c :: rest =>
    if c = '0' ∧ rest ≠ [] then none
    else
      match decimalValue (c :: rest) with
      | some n => if n ≤ 255 then some n else none
      | none => none

/-- An IPv4 address (as a character list) as a 32-bit value. -/
def parseIPv4Chars (l : List Char) : Option Nat :=
  match (splitOnChar '.' l).mapM parseOctet with
  | some [a, b, c, d] => some (((a * 256 + b) * 256 + c) * 256 + d)
  | _ => none

/-- An IPv4 address as a 32-bit value. -/
def parseIPv4 (s : String) : Option Nat :=
  parseIPv4Chars s.data

/-- A prefix length 0-32, no leading zeros. -/
def parsePrefixLen (l : List Char) : Option Nat :=
  match l with
  | [] => none
  | c :: rest =>
    if c = '0' ∧ rest ≠ [] then none
    else
      match decimalValue (c :: rest) with
      | some n => if n ≤ 32 then some n else none
      | none => none

/-- `ipaddress.ip_network(s, strict=False)` on IPv4 text: a bare address is a
/32; host bits are masked off.  Returns (network address, prefix length). -/
def parseIPv4Network (s : String) : Option (Nat × Nat) :=
  match splitOnChar '/' s.data with
  | [addr] => (parseIPv4Chars addr).map (fun a => (a, 32))
  | [addr, p] =>
    match parseIPv4Chars addr, parsePrefixLen p with
    | some a, some n => some ((a >>> (32 - n)) <<< (32 - n), n)
    | _, _ => none
  | _ => none

/-- `ip_in_network` (ip_utils.py lines 25-32): containment, `false` on any
parse failure. -/
def ip_in_network (ip network : String) : Bool :=
  match parseIPv4 ip, parseIPv4Network network with
  | some a, some (na, n) => a >>> (32 - n) == na >>> (32 - n)
  | _, _ => false

/-- `get_prefix_length` (ip_utils.py lines 43-49): prefix length, 0 on parse
failure. -/
def get_prefix_length (network : String) : Nat :=
  match parseIPv4Network network with
  | some (_, n) => n
  | none => 0

/-! ## Inventory (discovery.py) -/

/-- The `subnet_map` dict: subnet CIDR text → devices owning it, in insertion
order (Python dicts preserve insertion order). -/
abbrev SubnetMap := List (String × List NetworkDevice)

/-- One `self.subnet_map[subnet].append(device)` step of
`DeviceInventory.add_device` (discovery.py lines 87-98): create the key on
first sight, else append to the existing entry. -/
def insertSubnetDevice (m : SubnetMap) (subnet : String) (device : NetworkDevice) :
    SubnetMap :=
  match m with
  | [] => [(subnet, [device])]
  | (k, ds) :: rest =>
    if k = subnet then (k, ds ++ [device]) :: rest
    else (k, ds) :: insertSubnetDevice rest subnet device

/-- The subnet-index part of `DeviceInventory.add_device` for one device. -/
def addDeviceSubnets (m : SubnetMap) (device : NetworkDevice) : SubnetMap :=
  device.subnets.foldl (fun acc s => insertSubnetDevice acc s device) m

/-- The subnet index built by adding every device in order. -/
def buildSubnetMap (devices : List NetworkDevice) : SubnetMap :=
  devices.foldl addDeviceSubnets []

/-- `DeviceInventory`: the device list and the subnet index it maintains. -/
structure DeviceInventory where
  devices : List NetworkDevice
  subnet_map : SubnetMap
  deriving Repr

/-- An inventory freshly loaded from a device list (`add_device` over each). -/
def DeviceInventory.ofDevices (devices : List NetworkDevice) : DeviceInventory :=
  ⟨devices, buildSubnetMap devices⟩

/-- `DeviceInventory.find_device_by_ip` (discovery.py lines 100-102). -/
def find_device_by_ip (inv : DeviceInventory) (ip : String) : List NetworkDevice :=
  inv.devices.filter (fun d => d.management_ip == ip)

/-- `DeviceInventory.find_device_by_hostname` (discovery.py lines 104-117). -/
def find_device_by_hostname (inv : DeviceInventory) (hostname : String) :
    Option NetworkDevice :=
  inv.devices.find? (fun d => d.hostname == hostname)

/-- The `matches` list of `DeviceInventory.find_device_for_subnet`
(discovery.py lines 121-126): `(prefix_length, device)` for every subnet-map
entry whose subnet contains `ip`, in iteration order. -/
def subnetMatches (m : SubnetMap) (ip : String) : List (Nat × NetworkDevice) :=
  m.foldl
    (fun acc entry =>
      if ip_in_network ip entry.1 then
        acc ++ entry.2.map (fun d => (get_prefix_length entry.1, d))
      else acc) ([] : List (Nat × NetworkDevice))

/-- `DeviceInventory.find_device_for_subnet` (discovery.py lines 119-134):
collect the matches, then keep the devices at the longest prefix length
(`max` over the matches, Python `max(m[0] for m in matches)`). -/
def find_device_for_subnet (inv : DeviceInventory) (ip : String) :
    List NetworkDevice :=
  match subnetMatches inv.subnet_map ip with
  | [] => []
  | ms =>
    let longest := (ms.map Prod.fst).foldl max 0
    (ms.filter (fun m => m.1 == longest)).map Prod.snd

/-! ## Resolver (orchestrator.py `_resolve_device`, lines 370-397) -/

/-- Stages 1-2 of `PathTracer._resolve_device`: candidates by management IP,
falling back to the subnet longest-prefix match when empty. -/
def resolveCandidates (inv : DeviceInventory) (ip : String) : List NetworkDevice :=
  let byIp := find_device_by_ip inv ip
  if byIp.isEmpty then find_device_for_subnet inv ip else byIp

/-- `PathTracer._resolve_device`.  Stage 3: count candidates; stage 4:
site-affinity disambiguation (only when a previous hop exists and its
device's site is truthy — Python `if previous_hop and
previous_hop.device.site`, so an empty site string disables the filter). -/
def resolveDevice (inv : DeviceInventory) (ip : String)
    (previous_hop : Option PathHop) : ResolveResult :=
  match resolveCandidates inv ip with
  | [] => .notFound
  | [c] => .resolved c [c]
  | c1 :: c2 :: cs =>
    let candidates := c1 :: c2 :: cs
    match previous_hop with
    | some ph =>
      match ph.device.site with
      | some st =>
        if st = "" then .ambiguous candidates
        else
          match candidates.filter (fun c => c.site == some st) with
          | [c] => .resolvedBySite c candidates
          | [] => .ambiguous candidates
          | f1 :: f2 :: fs => .ambiguous (f1 :: f2 :: fs)
      | none => .ambiguous candidates
    | none => .ambiguous candidates

/-! ## Orchestrator (orchestrator.py `PathTracer.trace_path`) -/

/-- `max_hops` from the tracer configuration (orchestrator.py line 38),
default 30. -/
structure TraceConfig where
  max_hops : Nat := 30
  deriving Repr, DecidableEq

/-- The environment a trace runs in: the inventory, the `_query_device`
oracle (arguments as in orchestrator.py lines 239-241: device, destination,
context, ingress interface, protocol, destination port, source IP; an
`Except.error` is a raised exception carrying its message), and the measured
elapsed time. -/
structure TraceEnv where
  inventory : DeviceInventory
  query : NetworkDevice → String → String → Option String → String → Nat → String →
    Except String HopQueryResult
  elapsed_ms : ℚ := 0

/-- Message of orchestrator.py line 110. -/
def loopDetectedMessage (device : NetworkDevice) (ctx : String) : String :=
  "Routing loop detected at " ++ device.hostname ++ " in context " ++ ctx

/-- Message of orchestrator.py line 119. -/
def maxHopsMessage (max_hops : Nat) : String :=
  "Maximum hops (" ++ toString max_hops ++ ") exceeded"

/-- Message of orchestrator.py line 150. -/
def noRouteMessage (working_destination : String) (device : NetworkDevice) : String :=
  "No route to " ++ working_destination ++ " on " ++ device.hostname

/-- Message of orchestrator.py line 190. -/
def blackholeMessage (device : NetworkDevice) : String :=
  "Traffic black-holed at " ++ device.hostname

/-- Message of orchestrator.py line 200. -/
def nextHopNotFoundMessage (next_hop : String) : String :=
  "Next hop device not found for " ++ next_hop

/-- Message of orchestrator.py line 205. -/
def ambiguousHopMessage (next_hop : String) : String :=
  "Next hop " ++ next_hop ++ " matches multiple devices. Please select one to continue."

/-- Message of orchestrator.py lines 69-71. -/
def startDeviceNotFoundMessage (start_device : String) : String :=
  "Start device '" ++ start_device ++ "' not found in inventory"

/-- Message of orchestrator.py line 76. -/
def sourceNotFoundMessage : String :=
  "Source IP not found in inventory. Please specify a starting device."

/-- Message of orchestrator.py line 82. -/
def sourceAmbiguousMessage (source_ip : String) : String :=
  "Source IP " ++ source_ip ++ " matches multiple devices. Please select a starting device."

/-- The hop appended when no route is found (orchestrator.py lines 140-147). -/
def mkNoRouteHop (seq : Nat) (device : NetworkDevice) (ingress : Option String)
    (ctx : String) : PathHop :=
  { sequence := seq, device := device, ingress_interface := ingress,
    logical_context := ctx, notes := "No route to destination" }

/-- The hop appended when a route is found (orchestrator.py lines 155-167),
carrying the enrichment from the `HopQueryResult`. -/
def mkRouteHop (seq : Nat) (device : NetworkDevice) (ingress : Option String)
    (ctx : String) (route : RouteEntry) (qr : HopQueryResult) : PathHop :=
  { sequence := seq, device := device, ingress_interface := ingress,
    egress_interface := route.outgoing_interface, logical_context := ctx,
    route_used := some route,
    ingress_detail := qr.ingress_detail, egress_detail := qr.egress_detail,
    policy_result := qr.policy_result, nat_result := qr.nat_result }

/-- `PathTracer._determine_next_context` (orchestrator.py lines 406-428). -/
def determineNextContext (current_context : String) (next_device : NetworkDevice) :
    String :=
  if next_device.logical_contexts.contains current_context then current_context
  else next_device.default_context

/-- Python truthiness for an optional string argument (`if start_device:` /
`initial_context or ...`): an empty string counts as absent. -/
def truthyStr : Option String → Option String
  | some s => if s = "" then none else some s
  | none => none

/-- The working-destination update after a hop (orchestrator.py lines
176-179): a DNAT translation rewrites the destination. -/
def hopDnatStep (wdest : String) (h : PathHop) : String :=
  match h.nat_result with
  | some nr =>
    match nr.dnat with
    | some t => t.translated_ip
    | none => wdest
  | none => wdest

/-- The main per-hop loop of `trace_path` (orchestrator.py lines 104-225).
Fuel-based: the loop is always entered with `fuel + seq = max_hops + 2`, and
since `seq` grows by 1 per iteration while the hop-limit check stops any
iteration with `seq > max_hops`, the `fuel = 0` branch is unreachable from
`trace_path` (proved in the invariant lemma below).  An `Except.error`
carries the exception message together with the path as mutated so far,
mirroring Python's in-place mutation of `path` under the outer `try`. -/
def traceLoop (env : TraceEnv) (cfg : TraceConfig)
    (source_ip protocol : String) (destination_port : Nat)
    (fuel : Nat) (device : NetworkDevice) (ctx working_destination : String)
    (previous_egress : Option String) (visited : List (String × String))
    (seq : Nat) (path : TracePath) : Except (String × TracePath) TracePath :=
  match fuel with
  | 0 =>
    .ok { path with status := .max_hops_exceeded,
                    error_message := some (maxHopsMessage cfg.max_hops) }
  | fuel' + 1 =>
    let key := (device.management_ip, ctx)
    if visited.contains key then
      .ok { path with status := .loop_detected,
                      error_message := some (loopDetectedMessage device ctx) }
    else
      let visited' := key :: visited
      if seq > cfg.max_hops then
        .ok { path with status := .max_hops_exceeded,
                        error_message := some (maxHopsMessage cfg.max_hops) }
      else
        match env.query device working_destination ctx previous_egress
            protocol destination_port source_ip with
        | .error e => .error (e, path)
        | .ok qr =>
          match qr.route with
          | none =>
            let path' := path.add_hop (mkNoRouteHop seq device previous_egress ctx)
            .ok { path' with status := .incomplete,
                             error_message :=
                               some (noRouteMessage working_destination device) }
          | some route =>
            let hop := mkRouteHop seq device previous_egress ctx route qr
            let path' := path.add_hop hop
            let working_destination' := hopDnatStep working_destination hop
            if route.is_destination_reached working_destination' then
              .ok { path' with status := .complete }
            else if route.next_hop_type == "null" || route.next_hop_type == "reject" then
              .ok { path' with status := .blackholed,
                               error_message := some (blackholeMessage device) }
            else
              match resolveDevice env.inventory route.next_hop (some hop) with
              | .notFound =>
                .ok { path' with status := .incomplete,
                                 error_message :=
                                   some (nextHopNotFoundMessage route.next_hop) }
              | .ambiguous cands =>
                .ok { path' with status := .ambiguous_hop,
                                 error_message :=
                                   some (ambiguousHopMessage route.next_hop),
                                 metadata :=
                                   { path'.metadata with
                                     ambiguous_hop_sequence := some (seq + 1),
                                     candidates :=
                                       some (serializeCandidates cands) } }
              | .resolved next_device _ | .resolvedBySite next_device _ =>
                let next_ctx := determineNextContext ctx next_device
                traceLoop env cfg source_ip protocol destination_port fuel'
                  next_device next_ctx working_destination'
                  route.outgoing_interface visited' (seq + 1) path'

/-- The starting context (orchestrator.py line 93): the user-supplied context
when truthy, else the starting device's default context. -/
def initialContext (initial_context : Option String) (device : NetworkDevice) :
    String :=
  match truthyStr initial_context with
  | some s => s
  | none => device.default_context

/-- Entry into the loop once a starting device is known (orchestrator.py
lines 92-102): `working_destination` starts at the destination IP; fuel is
`max_hops + 1` so that `fuel + seq = max_hops + 2` at entry. -/
def traceFrom (env : TraceEnv) (cfg : TraceConfig)
    (source_ip destination_ip : String) (initial_context : Option String)
    (protocol : String) (destination_port : Nat)
    (device : NetworkDevice) (path0 : TracePath) :
    Except (String × TracePath) TracePath :=
  traceLoop env cfg source_ip protocol destination_port (cfg.max_hops + 1)
    device (initialContext initial_context device) destination_ip none [] 1 path0

/-- The body of the outer `try` of `trace_path` (orchestrator.py lines
64-225): start-device lookup or source resolution, then the loop. -/
def traceBody (env : TraceEnv) (cfg : TraceConfig)
    (source_ip destination_ip : String)
    (initial_context start_device : Option String)
    (protocol : String) (destination_port : Nat) (path0 : TracePath) :
    Except (String × TracePath) TracePath :=
  match truthyStr start_device with
  | some sd =>
    match find_device_by_hostname env.inventory sd with
    | none => .error (startDeviceNotFoundMessage sd, path0)
    | some d =>
      traceFrom env cfg source_ip destination_ip initial_context
        protocol destination_port d path0
  | none =>
    match resolveDevice env.inventory source_ip none with
    | .notFound =>
      .ok { path0 with status := .needs_input,
                       error_message := some sourceNotFoundMessage,
                       metadata := { path0.metadata with candidates := some [] } }
    | .ambiguous cands =>
      .ok { path0 with status := .needs_input,
                       error_message := some (sourceAmbiguousMessage source_ip),
                       metadata := { path0.metadata with
                                     candidates :=
                                       some (serializeCandidates cands) } }
    | .resolved d _ | .resolvedBySite d _ =>
      traceFrom env cfg source_ip destination_ip initial_context
        protocol destination_port d path0

/-- The freshly-constructed `TracePath` of orchestrator.py line 62. -/
def mkPath0 (source_ip destination_ip : String) : TracePath :=
  { source_ip := source_ip, destination_ip := destination_ip }

/-- `PathTracer.trace_path` (orchestrator.py lines 44-237): run the body,
catch any raised exception as status `error` with its message, and set the
total elapsed time in the `finally` block. -/
def trace_path (env : TraceEnv) (cfg : TraceConfig)
    (source_ip destination_ip : String)
    (initial_context start_device : Option String)
    (protocol : String) (destination_port : Nat) : TracePath :=
  let path0 : TracePath := mkPath0 source_ip destination_ip
  let path1 :=
    match traceBody env cfg source_ip destination_ip initial_context start_device
        protocol destination_port path0 with
    | .ok p => p
    | .error (e, p) => { p with status := .error, error_message := some e }
  { path1 with total_time_ms := some env.elapsed_ms }

/-! ## Derived notions used by the specification -/

/-- The key tracked in the `visited` set (orchestrator.py line 107). -/
def hopKey (h : PathHop) : String × String :=
  (h.device.management_ip, h.logical_context)

/-- The post-DNAT working destination after a list of hops: the original
destination rewritten at each hop whose NAT result carries a DNAT
translation. -/
def workingDestinationAfter (destination_ip : String) (hops : List PathHop) : String :=
  hops.foldl hopDnatStep destination_ip

/-! ## Firewall policy action normalisation -/

/-- Python `str.lower()` on the ASCII tokens these parsers see. -/
def pyLower (s : String) : String :=
  ⟨s.data.map Char.toLower⟩

/-- Action mapping of `PaloAltoParser.parse_security_policy_match`
(src/pathtracer/parsers/paloalto_parser.py lines 427-432): `raw` is the token
captured by the `action <token>;` search (`none` when absent, in which case
the default `"deny"` stands); the token is lowercased and mapped through
`{"allow": "permit", "deny": "deny", "drop": "drop"}`, unknown values passing
through. -/
def paloAltoNormalizeAction (raw : Option String) : String :=
  match raw with
  | none => "deny"
  | some r =>
    let l := pyLower r
    if l = "allow" then "permit"
    else if l = "deny" then "deny"
    else if l = "drop" then "drop"
    else l

/-- Action mapping of `CiscoASAParser.parse_packet_tracer`
(src/services/pathtrace-api/pathtracer/parsers/cisco_asa_parser.py lines
442-448): `raw` is the token captured by the `Action: <token>` search (`none`
when absent, default `"deny"`); the token is lowercased and mapped through
`{"allow": "permit", "drop": "deny"}`, unknown values passing through. -/
def ciscoASANormalizeAction (raw : Option String) : String :=
  match raw with
  | none => "deny"
  | some r =>
    let l := pyLower r
    if l = "allow" then "permit"
    else if l = "drop" then "deny"
    else l

/-! ## Arista rate and utilisation arithmetic -/

/-- The unit multipliers of `AristaParser._parse_rate`
(src/services/pathtrace-api/pathtracer/parsers/arista_parser.py lines
253-273); an unknown unit falls back to 1. -/
def rateUnitMultiplier (unit : String) : Nat :=
  if unit = "bps" then 1
  else if unit = "bits/sec" then 1
  else if unit = "Kbps" then 1000
  else if unit = "Mbps" then 1000000
  else if unit = "Gbps" then 1000000000
  else 1

/-- `AristaParser._parse_rate`: `int(float(value) * multiplier)`.  The rate
value captured by the `[\d.]+` regex is non-negative, so Python's
truncation toward zero is the floor. -/
def parseRate (value : ℚ) (unit : String) : ℤ :=
  ⌊value * (rateUnitMultiplier unit : ℚ)⌋

/-- The utilisation computation of `AristaParser.parse_interface_detail`
(arista_parser.py lines 395-403): bandwidth is in Kbit/sec, rate in
bits/sec; percent only when bandwidth is positive (else left at 0.0). -/
def utilisationPct (rate : ℤ) (bandwidthKbit : ℕ) : ℚ :=
  if 0 < bandwidthKbit then
    (rate : ℚ) / ((bandwidthKbit : ℚ) * 1000) * 100
  else 0

/-! ## C10: device equality and hashing -/

/-- C10: for any two `NetworkDevice` values, Python equality holds iff the
management IPs are equal (hostname and every other field are ignored), while
the hash is computed from the pair (hostname, management_ip), so two devices
that compare equal can have different hash inputs and hence may hash
differently. -/
theorem device_eq_by_management_ip_hash_by_pair :
    (∀ d1 d2 : NetworkDevice,
      (d1.pyEq d2 = true) ↔ d1.management_ip = d2.management_ip) ∧
    (∃ d1 d2 : NetworkDevice,
      d1.pyEq d2 = true ∧ d1.hashInput ≠ d2.hashInput) := by
  constructor
  · intro d1 d2
    simp [NetworkDevice.pyEq]
  · refine ⟨{ hostname := "edge-a", management_ip := "10.0.0.1" },
            { hostname := "edge-b", management_ip := "10.0.0.1" }, ?_, ?_⟩
    · decide
    · simp [NetworkDevice.hashInput]

/-! ## C8: firewall policy action normalisation -/

/-- C8 counterexample: the Cisco ASA packet-tracer parser does not preserve a
raw action of `drop`; its map `{"allow": "permit", "drop": "deny"}` rewrites
`drop` to `deny` (its own test `test_parse_deny` asserts this). -/
theorem ciscoASA_drop_becomes_deny :
    ciscoASANormalizeAction (some "drop") = "deny" ∧
    ¬ ciscoASANormalizeAction (some "drop") = "drop" := by
  constructor <;> decide

/-- C8 (amended): for raw actions in {allow, deny, drop} (case-insensitive),
the Palo Alto parser maps allow → permit and preserves deny and drop, while
the Cisco ASA parser maps allow → permit, preserves deny, and maps
drop → deny; hence both parsers' actions lie in {permit, deny, drop} (the
ASA's in {permit, deny}). -/
theorem policy_action_mapping (raw : String) :
    (pyLower raw = "allow" →
      paloAltoNormalizeAction (some raw) = "permit" ∧
      ciscoASANormalizeAction (some raw) = "permit") ∧
    (pyLower raw = "deny" →
      paloAltoNormalizeAction (some raw) = "deny" ∧
      ciscoASANormalizeAction (some raw) = "deny") ∧
    (pyLower raw = "drop" →
      paloAltoNormalizeAction (some raw) = "drop" ∧
      ciscoASANormalizeAction (some raw) = "deny") ∧
    ((pyLower raw = "allow" ∨ pyLower raw = "deny" ∨ pyLower raw = "drop") →
      paloAltoNormalizeAction (some raw) ∈ ["permit", "deny", "drop"] ∧
      ciscoASANormalizeAction (some raw) ∈ ["permit", "deny"]) := by
  refine ⟨?_, ?_, ?_, ?_⟩
  · intro h
    constructor <;> simp [paloAltoNormalizeAction, ciscoASANormalizeAction, h]
  · intro h
    constructor <;> simp [paloAltoNormalizeAction, ciscoASANormalizeAction, h]
  · intro h
    constructor <;> simp [paloAltoNormalizeAction, ciscoASANormalizeAction, h]
  · rintro (h | h | h) <;>
      constructor <;>
        simp [paloAltoNormalizeAction, ciscoASANormalizeAction, h]

/-- Witness for `policy_action_mapping` at the concrete raw token "Drop". -/
theorem policy_action_mapping_witness :
    paloAltoNormalizeAction (some "Drop") = "drop" ∧
    ciscoASANormalizeAction (some "Drop") = "deny" :=
  (policy_action_mapping "Drop").2.2.1 (by decide)

/-! ## C9: Arista rate units and utilisation -/

/-- C9 counterexample: the claimed formula fails.  First instance: the
claimed factor table gives `bits/sec` the factor 10³, but `_parse_rate`
treats `bits/sec` as already being bits per second (factor 1): for value 100
unit `bits/sec` with bandwidth 1000 Kbit (10⁶ bits/sec), the parser yields
0.01 % while the claimed formula gives 10 %.  Second instance: the rate is
truncated to an integer (`int(float(value) * multiplier)`): value 1.5 unit
`bps` with bandwidth 1 Kbit yields 0.1 % while the claimed formula gives
0.15 %, off by far more than 1e-6. -/
theorem utilisation_claimed_formula_fails :
    (¬ |utilisationPct (parseRate 100 "bits/sec") 1000 -
         100 * 1000 / ((1000 : ℚ) * 1000) * 100| ≤ 1 / 1000000) ∧
    (¬ |utilisationPct (parseRate (3 / 2) "bps") 1 -
         (3 / 2) * 1 / ((1 : ℚ) * 1000) * 100| ≤ 1 / 1000000) := by
  have h1 : parseRate 100 "bits/sec" = 100 := by
    simp [parseRate, rateUnitMultiplier]
  have h2 : parseRate (3 / 2) "bps" = 1 := by
    simp [parseRate, rateUnitMultiplier]
    norm_num [Int.floor_eq_iff]
  constructor
  · rw [h1]
    simp only [utilisationPct]
    norm_num
    exact lt_of_lt_of_le (by norm_num) (le_abs_self _)
  · rw [h2]
    simp only [utilisationPct]
    norm_num
    exact lt_of_lt_of_le (by norm_num) (le_abs_self _)

/-- C9 (amended): the factors are 1, 1, 10³, 10⁶, 10⁹ for bps, bits/sec,
Kbps, Mbps, Gbps (`bits/sec` is already bits per second), and the rate is
truncated to a whole number of bits per second before the division, so the
utilisation percent equals ⌊v·factor(unit)⌋ / b · 100 exactly (b = bandwidth
in bits/sec = 1000 · bandwidth-Kbit); whenever v·factor(unit) is an integer
— as in every realistic rate line — this coincides with the claimed
v·factor(unit) / b · 100, in particular within 1e-6. -/
theorem utilisation_truncated_formula (v : ℚ) (unit : String) (bw : ℕ)
    (_hv : 0 ≤ v) (hbw : 0 < bw)
    (_hu : unit ∈ ["bps", "bits/sec", "Kbps", "Mbps", "Gbps"]) :
    rateUnitMultiplier "bps" = 1 ∧ rateUnitMultiplier "bits/sec" = 1 ∧
    rateUnitMultiplier "Kbps" = 1000 ∧ rateUnitMultiplier "Mbps" = 1000000 ∧
    rateUnitMultiplier "Gbps" = 1000000000 ∧
    utilisationPct (parseRate v unit) bw =
      (⌊v * (rateUnitMultiplier unit : ℚ)⌋ : ℚ) / ((bw : ℚ) * 1000) * 100 ∧
    ((v * (rateUnitMultiplier unit : ℚ)).den = 1 →
      |utilisationPct (parseRate v unit) bw -
        v * (rateUnitMultiplier unit : ℚ) / ((bw : ℚ) * 1000) * 100| ≤
        1 / 1000000) := by
  have hbwq : (0 : ℚ) < (bw : ℚ) * 1000 := by positivity
  refine ⟨rfl, by decide, by decide, by decide, by decide, ?_, ?_⟩
  · simp [utilisationPct, parseRate, hbw]
  · intro hden
    have hnum : ((v * (rateUnitMultiplier unit : ℚ)).num : ℚ) =
        v * (rateUnitMultiplier unit : ℚ) := by
      rw [← Rat.den_eq_one_iff]
      exact hden
    have hfloor : (⌊v * (rateUnitMultiplier unit : ℚ)⌋ : ℚ) =
        v * (rateUnitMultiplier unit : ℚ) := by
      rw [← hnum]
      norm_cast
    simp [utilisationPct, parseRate, hbw, hfloor]

/-- Witness for `utilisation_truncated_formula`: 2.5 Gbps on a 10 Gbit
(10⁷ Kbit) interface is 25 %. -/
theorem utilisation_truncated_formula_witness :
    utilisationPct (parseRate (5 / 2) "Gbps") 10000000 =
      (⌊(5 / 2 : ℚ) * (rateUnitMultiplier "Gbps" : ℚ)⌋ : ℚ) /
        ((10000000 : ℚ) * 1000) * 100 ∧
    |utilisationPct (parseRate (5 / 2) "Gbps") 10000000 -
      (5 / 2) * (rateUnitMultiplier "Gbps" : ℚ) / ((10000000 : ℚ) * 1000) * 100| ≤
      1 / 1000000 := by
  have h := utilisation_truncated_formula (5 / 2) "Gbps" 10000000
    (by norm_num) (by norm_num) (by decide)
  have hden : ((5 / 2 : ℚ) * (rateUnitMultiplier "Gbps" : ℚ)).den = 1 := by
    have hm : rateUnitMultiplier "Gbps" = 1000000000 := by decide
    have hval : (5 / 2 : ℚ) * (rateUnitMultiplier "Gbps" : ℚ) =
        ((2500000000 : ℤ) : ℚ) := by
      rw [hm]
      norm_num
    rw [hval, Rat.den_intCast]
  exact ⟨h.2.2.2.2.2.1, h.2.2.2.2.2.2 hden⟩


/-! ## C3: the subnet index and the longest-prefix query -/

/-- Membership in the subnet index: `d` is listed under subnet `s`. -/
def MapHas (m : SubnetMap) (s : String) (d : NetworkDevice) : Prop :=
  ∃ ds, (s, ds) ∈ m ∧ d ∈ ds

theorem mapHas_nil (s : String) (d : NetworkDevice) : ¬ MapHas [] s d := by
  rintro ⟨ds, h, _⟩
  exact List.not_mem_nil _ h

theorem mapHas_cons (k : String) (ds : List NetworkDevice) (m : SubnetMap)
    (s' : String) (d : NetworkDevice) :
    MapHas ((k, ds) :: m) s' d ↔ (s' = k ∧ d ∈ ds) ∨ MapHas m s' d := by
  constructor
  · rintro ⟨ds2, h, hd⟩
    rcases List.mem_cons.mp h with h | h
    · rw [Prod.mk.injEq] at h
      obtain ⟨h1, h2⟩ := h
      subst h1
      subst h2
      exact Or.inl ⟨rfl, hd⟩
    · exact Or.inr ⟨ds2, h, hd⟩
  · rintro (⟨h1, hd⟩ | ⟨ds2, h, hd⟩)
    · subst h1
      exact ⟨ds, List.mem_cons_self _ _, hd⟩
    · exact ⟨ds2, List.mem_cons_of_mem _ h, hd⟩

theorem mapHas_insertSubnetDevice (m : SubnetMap) (s : String) (dv : NetworkDevice)
    (s' : String) (d : NetworkDevice) :
    MapHas (insertSubnetDevice m s dv) s' d ↔
      MapHas m s' d ∨ (s' = s ∧ d = dv) := by
  induction m with
  | nil =>
    rw [show insertSubnetDevice [] s dv = [(s, [dv])] from rfl, mapHas_cons]
    simp only [List.mem_singleton]
    constructor
    · rintro (⟨h1, h2⟩ | h)
      · exact Or.inr ⟨h1, h2⟩
      · exact absurd h (mapHas_nil _ _)
    · rintro (h | ⟨h1, h2⟩)
      · exact absurd h (mapHas_nil _ _)
      · exact Or.inl ⟨h1, h2⟩
  | cons head rest ih =>
    obtain ⟨k, ds0⟩ := head
    by_cases hk : k = s
    · subst hk
      rw [show insertSubnetDevice ((k, ds0) :: rest) k dv =
            (k, ds0 ++ [dv]) :: rest from by simp [insertSubnetDevice],
          mapHas_cons, mapHas_cons]
      simp only [List.mem_append, List.mem_singleton]
      tauto
    · rw [show insertSubnetDevice ((k, ds0) :: rest) s dv =
            (k, ds0) :: insertSubnetDevice rest s dv from by
              simp [insertSubnetDevice, hk],
          mapHas_cons, mapHas_cons, ih]
      tauto

theorem mapHas_foldl_insert (l : List String) (dv : NetworkDevice) :
    ∀ (m : SubnetMap) (s' : String) (d : NetworkDevice),
      MapHas (l.foldl (fun acc s => insertSubnetDevice acc s dv) m) s' d ↔
        MapHas m s' d ∨ (s' ∈ l ∧ d = dv) := by
  induction l with
  | nil => simp
  | cons a l ih =>
    intro m s' d
    simp only [List.foldl_cons]
    rw [ih, mapHas_insertSubnetDevice]
    simp only [List.mem_cons]
    tauto

theorem mapHas_addDeviceSubnets (m : SubnetMap) (dv : NetworkDevice)
    (s' : String) (d : NetworkDevice) :
    MapHas (addDeviceSubnets m dv) s' d ↔
      MapHas m s' d ∨ (s' ∈ dv.subnets ∧ d = dv) :=
  mapHas_foldl_insert dv.subnets dv m s' d

theorem mapHas_foldl_addDevice (devs : List NetworkDevice) :
    ∀ (m : SubnetMap) (s : String) (d : NetworkDevice),
      MapHas (devs.foldl addDeviceSubnets m) s d ↔
        MapHas m s d ∨ ∃ dv, dv ∈ devs ∧ s ∈ dv.subnets ∧ d = dv := by
  induction devs with
  | nil => simp
  | cons dv devs ih =>
    intro m s d
    simp only [List.foldl_cons]
    rw [ih, mapHas_addDeviceSubnets]
    simp only [List.mem_cons]
    constructor
    · rintro ((h | ⟨h1, h2⟩) | ⟨dv2, h1, h2, h3⟩)
      · exact Or.inl h
      · exact Or.inr ⟨dv, Or.inl rfl, h1, h2⟩
      · exact Or.inr ⟨dv2, Or.inr h1, h2, h3⟩
    · rintro (h | ⟨dv2, (h1 | h1), h2, h3⟩)
      · exact Or.inl (Or.inl h)
      · subst h1
        exact Or.inl (Or.inr ⟨h2, h3⟩)
      · exact Or.inr ⟨dv2, h1, h2, h3⟩

theorem mapHas_buildSubnetMap (devs : List NetworkDevice)
    (s : String) (d : NetworkDevice) :
    MapHas (buildSubnetMap devs) s d ↔ d ∈ devs ∧ s ∈ d.subnets := by
  rw [buildSubnetMap, mapHas_foldl_addDevice]
  constructor
  · rintro (h | ⟨dv, h1, h2, h3⟩)
    · exact absurd h (mapHas_nil _ _)
    · subst h3
      exact ⟨h1, h2⟩
  · rintro ⟨h1, h2⟩
    exact Or.inr ⟨d, h1, h2, rfl⟩

theorem mem_subnetMatches_aux (ip : String) (m : SubnetMap) :
    ∀ (acc : List (Nat × NetworkDevice)) (x : Nat × NetworkDevice),
      x ∈ m.foldl
          (fun acc entry =>
            if ip_in_network ip entry.1 then
              acc ++ entry.2.map (fun d => (get_prefix_length entry.1, d))
            else acc) acc ↔
        x ∈ acc ∨ ∃ e, e ∈ m ∧ ip_in_network ip e.1 = true ∧
          x ∈ e.2.map (fun d => (get_prefix_length e.1, d)) := by
  induction m with
  | nil => simp
  | cons e m ih =>
    intro acc x
    simp only [List.foldl_cons]
    rw [ih]
    by_cases he : ip_in_network ip e.1
    · simp only [if_pos he, List.mem_append, List.mem_cons]
      constructor
      · rintro ((h | h) | ⟨e2, h1, h2, h3⟩)
        · exact Or.inl h
        · exact Or.inr ⟨e, Or.inl rfl, he, h⟩
        · exact Or.inr ⟨e2, Or.inr h1, h2, h3⟩
      · rintro (h | ⟨e2, (h1 | h1), h2, h3⟩)
        · exact Or.inl (Or.inl h)
        · subst h1
          exact Or.inl (Or.inr h3)
        · exact Or.inr ⟨e2, h1, h2, h3⟩
    · simp only [if_neg he, List.mem_cons]
      constructor
      · rintro (h | ⟨e2, h1, h2, h3⟩)
        · exact Or.inl h
        · exact Or.inr ⟨e2, Or.inr h1, h2, h3⟩
      · rintro (h | ⟨e2, (h1 | h1), h2, h3⟩)
        · exact Or.inl h
        · subst h1
          exact absurd h2 (by simpa using he)
        · exact Or.inr ⟨e2, h1, h2, h3⟩

theorem mem_subnetMatches (m : SubnetMap) (ip : String)
    (p : Nat) (d : NetworkDevice) :
    (p, d) ∈ subnetMatches m ip ↔
      ∃ s, MapHas m s d ∧ ip_in_network ip s = true ∧
        p = get_prefix_length s := by
  rw [subnetMatches, mem_subnetMatches_aux]
  simp only [List.not_mem_nil, false_or, List.mem_map, Prod.mk.injEq, MapHas]
  constructor
  · rintro ⟨⟨s, ds⟩, h1, h2, d2, hd2, hp, hd⟩
    subst hd
    exact ⟨s, ⟨ds, h1, hd2⟩, h2, hp.symm⟩
  · rintro ⟨s, ⟨ds, h1, hd⟩, h2, hp⟩
    exact ⟨(s, ds), h1, h2, d, hd, hp.symm, rfl⟩

/-- `max` over a list of naturals, as `foldl max 0` (the Python
`max(...)` over the match prefix lengths). -/
def natFoldMax (l : List Nat) : Nat :=
  l.foldl max 0

theorem foldl_max_eq_max (l : List Nat) :
    ∀ n : Nat, l.foldl max n = max n (l.foldl max 0) := by
  induction l with
  | nil => intro n; simp
  | cons a l ih =>
    intro n
    simp only [List.foldl_cons]
    rw [ih (max n a), ih (max 0 a)]
    omega

theorem natFoldMax_cons (a : Nat) (l : List Nat) :
    natFoldMax (a :: l) = max a (natFoldMax l) := by
  simp only [natFoldMax, List.foldl_cons]
  rw [foldl_max_eq_max]
  omega

theorem le_natFoldMax (l : List Nat) (a : Nat) (h : a ∈ l) :
    a ≤ natFoldMax l := by
  induction l with
  | nil => simp at h
  | cons b l ih =>
    rw [natFoldMax_cons]
    rcases List.mem_cons.mp h with h | h
    · omega
    · have := ih h
      omega

theorem natFoldMax_mem_or_zero (l : List Nat) :
    natFoldMax l = 0 ∨ natFoldMax l ∈ l := by
  induction l with
  | nil => left; rfl
  | cons b l ih =>
    rw [natFoldMax_cons]
    rcases ih with h | h
    · rw [h]
      right
      simp
    · rcases Nat.le_total b (natFoldMax l) with hb | hb
      · rw [max_eq_right hb]
        exact Or.inr (List.mem_cons_of_mem _ h)
      · rw [max_eq_left hb]
        right
        simp

theorem natFoldMax_congr (l1 l2 : List Nat)
    (h : ∀ a, a ∈ l1 ↔ a ∈ l2) : natFoldMax l1 = natFoldMax l2 := by
  apply Nat.le_antisymm
  · rcases natFoldMax_mem_or_zero l1 with h1 | h1
    · omega
    · exact le_natFoldMax l2 _ ((h _).mp h1)
  · rcases natFoldMax_mem_or_zero l2 with h2 | h2
    · omega
    · exact le_natFoldMax l1 _ ((h _).mpr h2)

theorem find_device_for_subnet_eq (inv : DeviceInventory) (ip : String) :
    find_device_for_subnet inv ip =
      (List.filter
        (fun mm => mm.1 == natFoldMax ((subnetMatches inv.subnet_map ip).map Prod.fst))
        (subnetMatches inv.subnet_map ip)).map Prod.snd := by
  unfold find_device_for_subnet
  cases h : subnetMatches inv.subnet_map ip with
  | nil => simp
  | cons y ys => rfl

theorem mem_filter_fst_map_snd (ms : List (Nat × NetworkDevice)) (L : Nat)
    (d : NetworkDevice) :
    d ∈ (List.filter (fun mm => mm.1 == L) ms).map Prod.snd ↔
      ∃ p, (p, d) ∈ ms ∧ p = L := by
  simp only [List.mem_map, List.mem_filter, beq_iff_eq]
  constructor
  · rintro ⟨⟨p, d2⟩, ⟨hmem2, hp⟩, hd⟩
    simp only at hd hp
    subst hd
    exact ⟨p, hmem2, hp⟩
  · rintro ⟨p, hmem2, hp⟩
    exact ⟨(p, d), ⟨hmem2, hp⟩, rfl⟩

/-- The maximum prefix length over all subnets in the inventory (owned by any
device) that contain `ip`; 0 when no subnet contains it. -/
def maxContainingPlen (devs : List NetworkDevice) (ip : String) : Nat :=
  natFoldMax ((devs.flatMap fun d => d.subnets.filter fun s => ip_in_network ip s).map
    get_prefix_length)

/-- C3: on an inventory built from a device list, `find_device_for_subnet`
returns exactly the devices owning a containing subnet of maximal prefix
length among all containing subnets in the inventory, and the empty list when
no owned subnet contains the IP. -/
theorem by_subnet_longest_match (devs : List NetworkDevice) (x : String) :
    (∀ d, d ∈ find_device_for_subnet (DeviceInventory.ofDevices devs) x ↔
      (d ∈ devs ∧ ∃ s, s ∈ d.subnets ∧ ip_in_network x s = true ∧
        get_prefix_length s = maxContainingPlen devs x)) ∧
    ((∀ d, d ∈ devs → ∀ s, s ∈ d.subnets → ip_in_network x s = false) →
      find_device_for_subnet (DeviceInventory.ofDevices devs) x = []) := by
  have hsm : (DeviceInventory.ofDevices devs).subnet_map = buildSubnetMap devs := rfl
  have hmem : ∀ p d, (p, d) ∈ subnetMatches (buildSubnetMap devs) x ↔
      ∃ s, (d ∈ devs ∧ s ∈ d.subnets) ∧ ip_in_network x s = true ∧
        p = get_prefix_length s := by
    intro p d
    rw [mem_subnetMatches]
    constructor
    · rintro ⟨s, hh, h2, h3⟩
      exact ⟨s, (mapHas_buildSubnetMap devs s d).mp hh, h2, h3⟩
    · rintro ⟨s, hh, h2, h3⟩
      exact ⟨s, (mapHas_buildSubnetMap devs s d).mpr hh, h2, h3⟩
  have hmax : natFoldMax ((subnetMatches (buildSubnetMap devs) x).map Prod.fst) =
      maxContainingPlen devs x := by
    apply natFoldMax_congr
    intro a
    simp only [List.mem_map, maxContainingPlen, List.mem_flatMap, List.mem_filter]
    constructor
    · rintro ⟨⟨p, d⟩, hpd, hp⟩
      simp only at hp
      subst hp
      rcases (hmem p d).mp hpd with ⟨s, ⟨hd, hs⟩, hin, hpl⟩
      exact ⟨s, ⟨d, hd, hs, hin⟩, hpl.symm⟩
    · rintro ⟨s, ⟨d, hd, hs, hin⟩, hpl⟩
      exact ⟨(get_prefix_length s, d),
        (hmem _ d).mpr ⟨s, ⟨hd, hs⟩, hin, rfl⟩, hpl⟩
  have hmain : ∀ d, d ∈ find_device_for_subnet (DeviceInventory.ofDevices devs) x ↔
      (d ∈ devs ∧ ∃ s, s ∈ d.subnets ∧ ip_in_network x s = true ∧
        get_prefix_length s = maxContainingPlen devs x) := by
    intro d
    rw [find_device_for_subnet_eq, hsm, mem_filter_fst_map_snd]
    constructor
    · rintro ⟨p, hpd, hp⟩
      rcases (hmem p d).mp hpd with ⟨s, ⟨hd, hs⟩, hin, hpl⟩
      refine ⟨hd, s, hs, hin, ?_⟩
      rw [← hpl, hp, hmax]
    · rintro ⟨hd, s, hs, hin, hpl⟩
      refine ⟨get_prefix_length s, (hmem _ d).mpr ⟨s, ⟨hd, hs⟩, hin, rfl⟩, ?_⟩
      rw [hpl, hmax]
  refine ⟨hmain, ?_⟩
  intro hnone
  rw [List.eq_nil_iff_forall_not_mem]
  intro d hd
  rcases (hmain d).mp hd with ⟨hdev, s, hs, hin, _⟩
  rw [hnone d hdev s hs] at hin
  cases hin

/-! ## Orchestrator loop invariants (C1, C2, C4, C5, C6, C7) -/

/-- What holds of every path returned normally (`.ok`) by the trace loop,
relative to the path `path0` the loop was entered with. -/
def LoopOk (cfg : TraceConfig) (path0 T : TracePath) : Prop :=
  T.source_ip = path0.source_ip ∧
  T.destination_ip = path0.destination_ip ∧
  T.hops.length ≤ cfg.max_hops ∧
  (∀ hp, hp ∈ T.hops → hp.resolve_status = none) ∧
  (T.status = .complete →
    ∃ hp r, T.hops.getLast? = some hp ∧ hp.route_used = some r ∧
      r.is_destination_reached
        (workingDestinationAfter T.destination_ip T.hops) = true) ∧
  (T.status = .loop_detected →
    ∃ dv c, T.error_message = some (loopDetectedMessage dv c) ∧
      ∃ hp, hp ∈ T.hops ∧ hopKey hp = (dv.management_ip, c)) ∧
  (T.status = .max_hops_exceeded → T.hops.length = cfg.max_hops) ∧
  (T.status = .ambiguous_hop →
    ∃ cands, cands ≠ [] ∧
      T.metadata.candidates = some (serializeCandidates cands) ∧
      T.metadata.ambiguous_hop_sequence = some (T.hops.length + 1)) ∧
  T.status ≠ .needs_input ∧
  T.hops.Pairwise (fun a b => hopKey a ≠ hopKey b)

/-- What holds of the partial path carried by a raised exception (`.error`). -/
def LoopErr (cfg : TraceConfig) (path0 T : TracePath) : Prop :=
  T.source_ip = path0.source_ip ∧
  T.destination_ip = path0.destination_ip ∧
  T.hops.length ≤ cfg.max_hops ∧
  (∀ hp, hp ∈ T.hops → hp.resolve_status = none) ∧
  T.hops.Pairwise (fun a b => hopKey a ≠ hopKey b)

/-- An ambiguous resolver outcome always carries at least two candidates. -/
theorem resolveDevice_ambiguous_length (inv : DeviceInventory) (ip : String)
    (ph : Option PathHop) (cands : List NetworkDevice)
    (h : resolveDevice inv ip ph = .ambiguous cands) : 2 ≤ cands.length := by
  rcases hcs : resolveCandidates inv ip with _ | ⟨c1, _ | ⟨c2, cs⟩⟩
  · simp [resolveDevice, hcs] at h
  · simp [resolveDevice, hcs] at h
  · cases ph with
    | none =>
      simp only [resolveDevice, hcs, ResolveResult.ambiguous.injEq] at h
      subst h
      simp
    | some p =>
      cases hsite : p.device.site with
      | none =>
        simp only [resolveDevice, hcs, hsite, ResolveResult.ambiguous.injEq] at h
        subst h
        simp
      | some st =>
        by_cases hst : st = ""
        · simp only [resolveDevice, hcs, hsite, hst, if_pos,
            ResolveResult.ambiguous.injEq] at h
          subst h
          simp
        · rcases hf : (c1 :: c2 :: cs).filter (fun c => c.site == some st) with
            _ | ⟨f1, _ | ⟨f2, fs⟩⟩
          · simp only [resolveDevice, hcs, hsite, if_neg hst, hf,
              ResolveResult.ambiguous.injEq] at h
            subst h
            simp
          · simp [resolveDevice, hcs, hsite, if_neg hst, hf] at h
          · simp only [resolveDevice, hcs, hsite, if_neg hst, hf,
              ResolveResult.ambiguous.injEq] at h
            subst h
            simp

theorem loopOk_mono (cfg : TraceConfig) (path path' T : TracePath)
    (hs : path'.source_ip = path.source_ip)
    (hd : path'.destination_ip = path.destination_ip)
    (h : LoopOk cfg path' T) : LoopOk cfg path T := by
  obtain ⟨h1, h2, rest⟩ := h
  exact ⟨h1.trans hs, h2.trans hd, rest⟩

theorem loopErr_mono (cfg : TraceConfig) (path path' T : TracePath)
    (hs : path'.source_ip = path.source_ip)
    (hd : path'.destination_ip = path.destination_ip)
    (h : LoopErr cfg path' T) : LoopErr cfg path T := by
  obtain ⟨h1, h2, rest⟩ := h
  exact ⟨h1.trans hs, h2.trans hd, rest⟩

/-- Combined invariant over the loop's `Except` result. -/
def LoopRes (cfg : TraceConfig) (path0 : TracePath) :
    Except (String × TracePath) TracePath → Prop
  | .ok T => LoopOk cfg path0 T
  | .error (_, T) => LoopErr cfg path0 T

theorem loopRes_mono (cfg : TraceConfig) (path path' : TracePath)
    (res : Except (String × TracePath) TracePath)
    (hs : path'.source_ip = path.source_ip)
    (hd : path'.destination_ip = path.destination_ip)
    (h : LoopRes cfg path' res) : LoopRes cfg path res := by
  cases res with
  | ok T => exact loopOk_mono cfg path path' T hs hd h
  | error p =>
    obtain ⟨e, T⟩ := p
    exact loopErr_mono cfg path path' T hs hd h

theorem workingDestinationAfter_append (dest : String) (l : List PathHop)
    (hp : PathHop) :
    workingDestinationAfter dest (l ++ [hp]) =
      hopDnatStep (workingDestinationAfter dest l) hp := by
  simp [workingDestinationAfter, List.foldl_append]

/-- The length and membership facts for the path with one hop appended. -/
theorem add_hop_resolve_none (path : TracePath) (hp0 : PathHop)
    (hres : ∀ hp, hp ∈ path.hops → hp.resolve_status = none)
    (h0 : hp0.resolve_status = none) :
    ∀ hp, hp ∈ (path.add_hop hp0).hops → hp.resolve_status = none := by
  intro hp hmem
  simp only [TracePath.add_hop, List.mem_append, List.mem_singleton] at hmem
  rcases hmem with hmem | hmem
  · exact hres hp hmem
  · subst hmem
    exact h0

/-- Appending a hop whose key is not yet visited keeps hop keys pairwise
distinct, provided every existing hop's key is visited. -/
theorem add_hop_pairwise (l : List PathHop) (hp0 : PathHop)
    (visited : List (String × String))
    (hpw : l.Pairwise (fun a b => hopKey a ≠ hopKey b))
    (hkeys : ∀ hp, hp ∈ l → hopKey hp ∈ visited)
    (hnot : ¬ hopKey hp0 ∈ visited) :
    (l ++ [hp0]).Pairwise (fun a b => hopKey a ≠ hopKey b) := by
  rw [List.pairwise_append]
  refine ⟨hpw, List.pairwise_singleton _ _, ?_⟩
  intro a ha b hb
  rw [List.mem_singleton] at hb
  subst hb
  intro hk
  exact hnot (hk ▸ hkeys a ha)

/-- After adding the current key to `visited` and appending the hop, every
recorded hop's key is still visited. -/
theorem add_hop_keys_visited (l : List PathHop) (hp0 : PathHop)
    (visited : List (String × String))
    (hkeys : ∀ hp, hp ∈ l → hopKey hp ∈ visited) :
    ∀ hp, hp ∈ l ++ [hp0] → hopKey hp ∈ (hopKey hp0 :: visited) := by
  intro hp hmem
  rw [List.mem_append, List.mem_singleton] at hmem
  rcases hmem with hmem | hmem
  · exact List.mem_cons_of_mem _ (hkeys hp hmem)
  · subst hmem
    exact List.mem_cons_self _ _

/-- A key the visited list does not contain is not a member of it. -/
theorem not_mem_visited_of_not_contains {k : String × String}
    {visited : List (String × String)}
    (hvis : ¬ visited.contains k = true) : k ∉ visited := by
  intro hmem
  exact hvis (by simpa using hmem)

/-- The central loop invariant: entered with consistent state (working
destination equal to the post-DNAT fold over the accumulated hops, every
visited key realised by an accumulated hop, `seq` one past the hop count,
`seq` within the limit, and exact fuel), the loop's result satisfies
`LoopOk` / `LoopErr`. -/
theorem traceLoop_invariant (env : TraceEnv) (cfg : TraceConfig)
    (src pr : String) (port : Nat) :
    ∀ (fuel : Nat) (device : NetworkDevice) (ctx wdest : String)
      (peg : Option String) (visited : List (String × String)) (seq : Nat)
      (path : TracePath),
      wdest = workingDestinationAfter path.destination_ip path.hops →
      (∀ k, k ∈ visited → ∃ hp, hp ∈ path.hops ∧ hopKey hp = k) →
      path.hops.length + 1 = seq →
      seq ≤ cfg.max_hops + 1 →
      fuel + seq = cfg.max_hops + 2 →
      (∀ hp, hp ∈ path.hops → hp.resolve_status = none) →
      (∀ hp, hp ∈ path.hops → hopKey hp ∈ visited) →
      path.hops.Pairwise (fun a b => hopKey a ≠ hopKey b) →
      LoopRes cfg path
        (traceLoop env cfg src pr port fuel device ctx wdest peg visited seq path) := by
  intro fuel
  induction fuel with
  | zero =>
    intro device ctx wdest peg visited seq path _ _ _ hseq hfuel _ _ _
    omega
  | succ fuel ih =>
    intro device ctx wdest peg visited seq path hwd hvk hlen hseq hfuel hres hkeys hpw
    simp only [traceLoop]
    by_cases hvis : visited.contains (device.management_ip, ctx) = true
    · rw [if_pos hvis]
      refine ⟨rfl, rfl, show path.hops.length ≤ cfg.max_hops by omega,
        hres, ?_, ?_, ?_, ?_, ?_, hpw⟩
      · intro h
        simp at h
      · intro _
        refine ⟨device, ctx, rfl, ?_⟩
        have hk : (device.management_ip, ctx) ∈ visited := by simpa using hvis
        exact hvk _ hk
      · intro h
        simp at h
      · intro h
        simp at h
      · simp
    · rw [if_neg hvis]
      by_cases hs : seq > cfg.max_hops
      · rw [if_pos hs]
        refine ⟨rfl, rfl, show path.hops.length ≤ cfg.max_hops by omega,
          hres, ?_, ?_, ?_, ?_, ?_, hpw⟩
        · intro h
          simp at h
        · intro h
          simp at h
        · intro _
          show path.hops.length = cfg.max_hops
          omega
        · intro h
          simp at h
        · simp
      · rw [if_neg hs]
        split
        · rename_i e hq
          exact ⟨rfl, rfl, by omega, hres, hpw⟩
        · rename_i qr hq
          split
          · rename_i hr
            refine ⟨rfl, rfl, ?_,
              add_hop_resolve_none path _ hres rfl, ?_, ?_, ?_, ?_, ?_,
                add_hop_pairwise path.hops _ visited hpw hkeys
                  (not_mem_visited_of_not_contains hvis)⟩
            · show (path.hops ++ [mkNoRouteHop seq device peg ctx]).length ≤
                cfg.max_hops
              simp only [List.length_append, List.length_singleton]
              omega
            · intro h
              simp at h
            · intro h
              simp at h
            · intro h
              simp at h
            · intro h
              simp at h
            · simp
          · rename_i route hr
            by_cases hreach : route.is_destination_reached
                (hopDnatStep wdest (mkRouteHop seq device peg ctx route qr)) = true
            · rw [if_pos hreach]
              refine ⟨rfl, rfl, ?_,
                add_hop_resolve_none path _ hres rfl, ?_, ?_, ?_, ?_, ?_,
                add_hop_pairwise path.hops _ visited hpw hkeys
                  (not_mem_visited_of_not_contains hvis)⟩
              · show (path.hops ++ [mkRouteHop seq device peg ctx route qr]).length ≤
                  cfg.max_hops
                simp only [List.length_append, List.length_singleton]
                omega
              · intro _
                refine ⟨mkRouteHop seq device peg ctx route qr, route, ?_, rfl, ?_⟩
                · show (path.hops ++
                    [mkRouteHop seq device peg ctx route qr]).getLast? = _
                  rw [List.getLast?_concat]
                · show route.is_destination_reached
                    (workingDestinationAfter path.destination_ip
                      (path.hops ++ [mkRouteHop seq device peg ctx route qr])) = true
                  rw [workingDestinationAfter_append, ← hwd]
                  exact hreach
              · intro h
                simp at h
              · intro h
                simp at h
              · intro h
                simp at h
              · simp
            · rw [if_neg hreach]
              by_cases hnull : (route.next_hop_type == "null" ||
                  route.next_hop_type == "reject") = true
              · rw [if_pos hnull]
                refine ⟨rfl, rfl, ?_,
                  add_hop_resolve_none path _ hres rfl, ?_, ?_, ?_, ?_, ?_,
                add_hop_pairwise path.hops _ visited hpw hkeys
                  (not_mem_visited_of_not_contains hvis)⟩
                · show (path.hops ++
                    [mkRouteHop seq device peg ctx route qr]).length ≤ cfg.max_hops
                  simp only [List.length_append, List.length_singleton]
                  omega
                · intro h
                  simp at h
                · intro h
                  simp at h
                · intro h
                  simp at h
                · intro h
                  simp at h
                · simp
              · rw [if_neg hnull]
                split
                · rename_i hrd
                  refine ⟨rfl, rfl, ?_,
                    add_hop_resolve_none path _ hres rfl, ?_, ?_, ?_, ?_, ?_,
                add_hop_pairwise path.hops _ visited hpw hkeys
                  (not_mem_visited_of_not_contains hvis)⟩
                  · show (path.hops ++
                      [mkRouteHop seq device peg ctx route qr]).length ≤ cfg.max_hops
                    simp only [List.length_append, List.length_singleton]
                    omega
                  · intro h
                    simp at h
                  · intro h
                    simp at h
                  · intro h
                    simp at h
                  · intro h
                    simp at h
                  · simp
                · rename_i cands hrd
                  refine ⟨rfl, rfl, ?_,
                    add_hop_resolve_none path _ hres rfl, ?_, ?_, ?_, ?_, ?_,
                add_hop_pairwise path.hops _ visited hpw hkeys
                  (not_mem_visited_of_not_contains hvis)⟩
                  · show (path.hops ++
                      [mkRouteHop seq device peg ctx route qr]).length ≤ cfg.max_hops
                    simp only [List.length_append, List.length_singleton]
                    omega
                  · intro h
                    simp at h
                  · intro h
                    simp at h
                  · intro h
                    simp at h
                  · intro _
                    have h2 := resolveDevice_ambiguous_length _ _ _ _ hrd
                    refine ⟨cands, ?_, rfl, ?_⟩
                    · intro hnil
                      rw [hnil] at h2
                      simp at h2
                    · show _ = some ((path.hops ++
                        [mkRouteHop seq device peg ctx route qr]).length + 1)
                      simp only [List.length_append, List.length_singleton]
                      have hseqeq : seq + 1 = path.hops.length + 1 + 1 := by omega
                      rw [show (some (seq + 1) : Option Nat) =
                        some (path.hops.length + 1 + 1) from by rw [hseqeq]]
                  · simp
                · rename_i nd ncands hrd
                  apply loopRes_mono cfg path
                    (path.add_hop (mkRouteHop seq device peg ctx route qr)) _ rfl rfl
                  apply ih
                  · show hopDnatStep wdest (mkRouteHop seq device peg ctx route qr) =
                      workingDestinationAfter path.destination_ip
                        (path.hops ++ [mkRouteHop seq device peg ctx route qr])
                    rw [workingDestinationAfter_append, ← hwd]
                  · intro k hk
                    rcases List.mem_cons.mp hk with hk | hk
                    · subst hk
                      exact ⟨mkRouteHop seq device peg ctx route qr,
                        by simp [TracePath.add_hop], rfl⟩
                    · obtain ⟨hp, hmem, hkey⟩ := hvk _ hk
                      exact ⟨hp, by simp [TracePath.add_hop, hmem], hkey⟩
                  · show (path.hops ++
                      [mkRouteHop seq device peg ctx route qr]).length + 1 = seq + 1
                    simp only [List.length_append, List.length_singleton]
                    omega
                  · omega
                  · omega
                  · exact add_hop_resolve_none path _ hres rfl
                  · exact add_hop_keys_visited path.hops _ visited hkeys
                  · exact add_hop_pairwise path.hops _ visited hpw hkeys
                      (not_mem_visited_of_not_contains hvis)
                · rename_i nd ncands hrd
                  apply loopRes_mono cfg path
                    (path.add_hop (mkRouteHop seq device peg ctx route qr)) _ rfl rfl
                  apply ih
                  · show hopDnatStep wdest (mkRouteHop seq device peg ctx route qr) =
                      workingDestinationAfter path.destination_ip
                        (path.hops ++ [mkRouteHop seq device peg ctx route qr])
                    rw [workingDestinationAfter_append, ← hwd]
                  · intro k hk
                    rcases List.mem_cons.mp hk with hk | hk
                    · subst hk
                      exact ⟨mkRouteHop seq device peg ctx route qr,
                        by simp [TracePath.add_hop], rfl⟩
                    · obtain ⟨hp, hmem, hkey⟩ := hvk _ hk
                      exact ⟨hp, by simp [TracePath.add_hop, hmem], hkey⟩
                  · show (path.hops ++
                      [mkRouteHop seq device peg ctx route qr]).length + 1 = seq + 1
                    simp only [List.length_append, List.length_singleton]
                    omega
                  · omega
                  · omega
                  · exact add_hop_resolve_none path _ hres rfl
                  · exact add_hop_keys_visited path.hops _ visited hkeys
                  · exact add_hop_pairwise path.hops _ visited hpw hkeys
                      (not_mem_visited_of_not_contains hvis)

/-! ## Top-level invariants of `trace_path` -/

/-- What holds of a path returned normally by the body of the `try`. -/
def BodyOk (env : TraceEnv) (cfg : TraceConfig) (si di : String)
    (p : TracePath) : Prop :=
  p.source_ip = si ∧ p.destination_ip = di ∧
  p.hops.length ≤ cfg.max_hops ∧
  (∀ hp, hp ∈ p.hops → hp.resolve_status = none) ∧
  (p.status = .complete →
    ∃ hp r, p.hops.getLast? = some hp ∧ hp.route_used = some r ∧
      r.is_destination_reached
        (workingDestinationAfter p.destination_ip p.hops) = true) ∧
  (p.status = .loop_detected →
    ∃ dv c, p.error_message = some (loopDetectedMessage dv c) ∧
      ∃ hp, hp ∈ p.hops ∧ hopKey hp = (dv.management_ip, c)) ∧
  (p.status = .max_hops_exceeded → p.hops.length = cfg.max_hops) ∧
  (p.status = .ambiguous_hop →
    ∃ cands, cands ≠ [] ∧
      p.metadata.candidates = some (serializeCandidates cands) ∧
      p.metadata.ambiguous_hop_sequence = some (p.hops.length + 1)) ∧
  (p.status = .needs_input →
    ((p.metadata.candidates = some [] ∧
        resolveDevice env.inventory si none = .notFound) ∨
     (∃ cs, resolveDevice env.inventory si none = .ambiguous cs ∧ cs ≠ [] ∧
        p.metadata.candidates = some (serializeCandidates cs)))) ∧
  p.hops.Pairwise (fun a b => hopKey a ≠ hopKey b)

/-- Combined invariant over the body's `Except` result. -/
def BodyRes (env : TraceEnv) (cfg : TraceConfig) (si di : String) :
    Except (String × TracePath) TracePath → Prop
  | .ok p => BodyOk env cfg si di p
  | .error (_, p) =>
    p.source_ip = si ∧ p.destination_ip = di ∧
    p.hops.length ≤ cfg.max_hops ∧
    (∀ hp, hp ∈ p.hops → hp.resolve_status = none) ∧
    p.hops.Pairwise (fun a b => hopKey a ≠ hopKey b)

theorem loopRes_to_bodyRes (env : TraceEnv) (cfg : TraceConfig) (si di : String)
    (res : Except (String × TracePath) TracePath)
    (h : LoopRes cfg (mkPath0 si di) res) : BodyRes env cfg si di res := by
  cases res with
  | ok T =>
    obtain ⟨h1, h2, h3, h4, h5, h6, h7, h8, h9, h10⟩ := h
    exact ⟨h1, h2, h3, h4, h5, h6, h7, h8, fun hni => absurd hni h9, h10⟩
  | error ep =>
    obtain ⟨e, p⟩ := ep
    obtain ⟨h1, h2, h3, h4, h5⟩ := h
    exact ⟨h1, h2, h3, h4, h5⟩

theorem traceFrom_invariant (env : TraceEnv) (cfg : TraceConfig)
    (si di : String) (ic : Option String) (pr : String) (port : Nat)
    (d : NetworkDevice) :
    BodyRes env cfg si di (traceFrom env cfg si di ic pr port d (mkPath0 si di)) := by
  apply loopRes_to_bodyRes
  unfold traceFrom
  apply traceLoop_invariant
  · rfl
  · intro k hk
    simp at hk
  · rfl
  · omega
  · omega
  · intro hp hmem
    simp [mkPath0] at hmem
  · intro hp hmem
    simp [mkPath0] at hmem
  · exact List.Pairwise.nil

theorem traceBody_invariant (env : TraceEnv) (cfg : TraceConfig)
    (si di : String) (ic sd : Option String) (pr : String) (port : Nat) :
    BodyRes env cfg si di
      (traceBody env cfg si di ic sd pr port (mkPath0 si di)) := by
  simp only [traceBody]
  split
  · rename_i sd2 hsd
    split
    · rename_i hfind
      refine ⟨rfl, rfl, ?_, ?_, ?_⟩
      · simp [mkPath0]
      · intro hp hmem
        simp [mkPath0] at hmem
      · exact List.Pairwise.nil
    · rename_i d hfind
      exact traceFrom_invariant env cfg si di ic pr port d
  · rename_i hsd
    split
    · rename_i hre
      refine ⟨rfl, rfl, ?_, ?_, ?_, ?_, ?_, ?_, ?_, ?_⟩
      · simp [mkPath0]
      · intro hp hmem
        simp [mkPath0] at hmem
      · intro h
        simp at h
      · intro h
        simp at h
      · intro h
        simp at h
      · intro h
        simp at h
      · intro _
        exact Or.inl ⟨rfl, hre⟩
      · exact List.Pairwise.nil
    · rename_i cs hre
      refine ⟨rfl, rfl, ?_, ?_, ?_, ?_, ?_, ?_, ?_, ?_⟩
      · simp [mkPath0]
      · intro hp hmem
        simp [mkPath0] at hmem
      · intro h
        simp at h
      · intro h
        simp at h
      · intro h
        simp at h
      · intro h
        simp at h
      · intro _
        refine Or.inr ⟨cs, hre, ?_, rfl⟩
        have h2 := resolveDevice_ambiguous_length _ _ _ _ hre
        intro hnil
        rw [hnil] at h2
        simp at h2
      · exact List.Pairwise.nil
    · rename_i d cands hre
      exact traceFrom_invariant env cfg si di ic pr port d
    · rename_i d cands hre
      exact traceFrom_invariant env cfg si di ic pr port d

theorem trace_path_eq_ok (env : TraceEnv) (cfg : TraceConfig)
    (si di : String) (ic sd : Option String) (pr : String) (port : Nat)
    (p : TracePath)
    (h : traceBody env cfg si di ic sd pr port (mkPath0 si di) = .ok p) :
    trace_path env cfg si di ic sd pr port =
      { p with total_time_ms := some env.elapsed_ms } := by
  simp only [trace_path]
  rw [h]

theorem trace_path_eq_err (env : TraceEnv) (cfg : TraceConfig)
    (si di : String) (ic sd : Option String) (pr : String) (port : Nat)
    (e : String) (p : TracePath)
    (h : traceBody env cfg si di ic sd pr port (mkPath0 si di) = .error (e, p)) :
    trace_path env cfg si di ic sd pr port =
      { p with status := .error, error_message := some e,
               total_time_ms := some env.elapsed_ms } := by
  simp only [trace_path]
  rw [h]

/-- Everything the claims need about a returned trace, in one place. -/
def TraceResultOk (env : TraceEnv) (cfg : TraceConfig) (si di : String)
    (T : TracePath) : Prop :=
  T.source_ip = si ∧ T.destination_ip = di ∧
  T.total_time_ms = some env.elapsed_ms ∧
  T.hops.length ≤ cfg.max_hops ∧
  (∀ hp, hp ∈ T.hops → hp.resolve_status = none) ∧
  (T.status = .complete →
    ∃ hp r, T.hops.getLast? = some hp ∧ hp.route_used = some r ∧
      r.is_destination_reached
        (workingDestinationAfter T.destination_ip T.hops) = true) ∧
  (T.status = .loop_detected →
    ∃ dv c, T.error_message = some (loopDetectedMessage dv c) ∧
      ∃ hp, hp ∈ T.hops ∧ hopKey hp = (dv.management_ip, c)) ∧
  (T.status = .max_hops_exceeded → T.hops.length = cfg.max_hops) ∧
  (T.status = .ambiguous_hop →
    ∃ cands, cands ≠ [] ∧
      T.metadata.candidates = some (serializeCandidates cands) ∧
      T.metadata.ambiguous_hop_sequence = some (T.hops.length + 1)) ∧
  (T.status = .needs_input →
    ((T.metadata.candidates = some [] ∧
        resolveDevice env.inventory si none = .notFound) ∨
     (∃ cs, resolveDevice env.inventory si none = .ambiguous cs ∧ cs ≠ [] ∧
        T.metadata.candidates = some (serializeCandidates cs)))) ∧
  T.hops.Pairwise (fun a b => hopKey a ≠ hopKey b)

theorem trace_path_invariant (env : TraceEnv) (cfg : TraceConfig)
    (si di : String) (ic sd : Option String) (pr : String) (port : Nat) :
    TraceResultOk env cfg si di (trace_path env cfg si di ic sd pr port) := by
  have hb := traceBody_invariant env cfg si di ic sd pr port
  cases hbe : traceBody env cfg si di ic sd pr port (mkPath0 si di) with
  | ok p =>
    rw [hbe] at hb
    rw [trace_path_eq_ok env cfg si di ic sd pr port p hbe]
    obtain ⟨h1, h2, h3, h4, h5, h6, h7, h8, h9, h10⟩ := hb
    exact ⟨h1, h2, rfl, h3, h4, h5, h6, h7, h8, h9, h10⟩
  | error ep =>
    obtain ⟨e, p⟩ := ep
    rw [hbe] at hb
    rw [trace_path_eq_err env cfg si di ic sd pr port e p hbe]
    obtain ⟨h1, h2, h3, h4, h5⟩ := hb
    refine ⟨h1, h2, rfl, h3, h4, ?_, ?_, ?_, ?_, ?_, h5⟩
    · intro h
      simp at h
    · intro h
      simp at h
    · intro h
      simp at h
    · intro h
      simp at h
    · intro h
      simp at h

/-! ## Concrete scenarios used by witnesses and counterexamples -/

def devR1 : NetworkDevice :=
  { hostname := "r1", management_ip := "10.0.0.1", vendor := "cisco_ios",
    subnets := ["10.1.1.0/24"] }

def devR2 : NetworkDevice :=
  { hostname := "r2", management_ip := "10.0.0.2", vendor := "cisco_ios",
    subnets := ["10.2.2.0/24"] }

def invTwo : DeviceInventory := DeviceInventory.ofDevices [devR1, devR2]

def routeTo (nh egress : String) : RouteEntry :=
  { destination := "0.0.0.0/0", next_hop := nh, next_hop_type := "ip",
    outgoing_interface := some egress, protocol := "static" }

/-- Two routers each pointing at the other: a routing loop. -/
def envLoop : TraceEnv :=
  { inventory := invTwo,
    query := fun d _ _ _ _ _ _ =>
      if d.management_ip == "10.0.0.1" then
        .ok { route := some (routeTo "10.0.0.2" "Gi0/1") }
      else
        .ok { route := some (routeTo "10.0.0.1" "Gi0/2") },
    elapsed_ms := 0 }

def tLoop : TracePath :=
  trace_path envLoop {} "10.1.1.10" "10.9.9.9" none none "tcp" 443

def tMax : TracePath :=
  trace_path envLoop { max_hops := 1 } "10.1.1.10" "10.9.9.9" none none "tcp" 443

def tNeeds : TracePath :=
  trace_path envLoop {} "192.168.9.9" "10.2.2.20" none none "tcp" 443

def rViaR2 : RouteEntry :=
  { destination := "10.2.2.0/24", next_hop := "10.0.0.2",
    next_hop_type := "ip", outgoing_interface := some "Gi0/1",
    protocol := "static" }

def rConnected : RouteEntry :=
  { destination := "10.2.2.0/24", next_hop := "10.2.2.20",
    next_hop_type := "connected", outgoing_interface := some "Gi0/2",
    protocol := "connected" }

/-- R1 forwards to R2, where the destination subnet is directly connected. -/
def envTwoHop : TraceEnv :=
  { inventory := invTwo,
    query := fun d _ _ _ _ _ _ =>
      if d.management_ip == "10.0.0.1" then .ok { route := some rViaR2 }
      else .ok { route := some rConnected },
    elapsed_ms := 5 }

def tTwoHop : TracePath :=
  trace_path envTwoHop {} "10.1.1.10" "10.2.2.20" none none "tcp" 443

/-! ## C1: complete traces reach the working destination -/

/-- C1: for every trace returned by `trace_path` with terminal status
`complete`, the route of its last hop satisfies "destination reached" against
the working destination — the original destination IP rewritten, at each hop
whose NAT result carries a DNAT translation, to that translation's translated
IP (the fold `workingDestinationAfter`). -/
theorem complete_trace_reaches_working_destination
    (env : TraceEnv) (cfg : TraceConfig) (si di : String)
    (ic sd : Option String) (pr : String) (port : Nat) (T : TracePath)
    (hT : T = trace_path env cfg si di ic sd pr port)
    (hc : T.status = .complete) :
    ∃ hp r, T.hops.getLast? = some hp ∧ hp.route_used = some r ∧
      r.is_destination_reached
        (workingDestinationAfter T.destination_ip T.hops) = true := by
  subst hT
  exact (trace_path_invariant env cfg si di ic sd pr port).2.2.2.2.2.1 hc

/-- Witness for `complete_trace_reaches_working_destination` on the concrete
two-hop scenario. -/
theorem complete_trace_reaches_working_destination_witness :
    tTwoHop.status = .complete ∧
    ∃ hp r, tTwoHop.hops.getLast? = some hp ∧ hp.route_used = some r ∧
      r.is_destination_reached
        (workingDestinationAfter tTwoHop.destination_ip tTwoHop.hops) = true :=
  ⟨by decide,
    complete_trace_reaches_working_destination envTwoHop {} "10.1.1.10"
      "10.2.2.20" none none "tcp" 443 tTwoHop rfl (by decide)⟩

/-! ## C2: loop detection -/

/-- C2 counterexample: a two-router loop yields status `loop_detected` with
exactly two hops whose (management-IP, logical-context) keys differ — the
revisited pair is never appended as a second hop, so no indices i < j with
equal keys exist in the hops list, contrary to the claim. -/
theorem loop_detected_without_duplicate_hop_keys :
    tLoop.status = .loop_detected ∧
    ¬ (∃ j, j < tLoop.hops.length ∧ ∃ i, i < j ∧
        hopKey (tLoop.hops.getD i default) =
          hopKey (tLoop.hops.getD j default)) := by
  constructor
  · decide
  · rintro ⟨j, hj, i, hij, hkey⟩
    have hlen : tLoop.hops.length = 2 := by decide
    rw [hlen] at hj
    interval_cases j
    · omega
    · interval_cases i
      exact absurd hkey (by decide)

/-- C2 (amended): for every trace with terminal status `loop_detected`, the
walk stopped because the next (device management-IP, logical context) pair —
the one named in the error message — equals the key of some already-recorded
hop; the revisited pair itself is not appended as a second hop, so no two
recorded hops share a key. -/
theorem loop_detected_names_revisited_hop
    (env : TraceEnv) (cfg : TraceConfig) (si di : String)
    (ic sd : Option String) (pr : String) (port : Nat) (T : TracePath)
    (hT : T = trace_path env cfg si di ic sd pr port)
    (hl : T.status = .loop_detected) :
    (∃ dv c, T.error_message = some (loopDetectedMessage dv c) ∧
      ∃ hp, hp ∈ T.hops ∧ hopKey hp = (dv.management_ip, c)) ∧
    T.hops.Pairwise (fun a b => hopKey a ≠ hopKey b) := by
  subst hT
  have h := trace_path_invariant env cfg si di ic sd pr port
  exact ⟨h.2.2.2.2.2.2.1 hl, h.2.2.2.2.2.2.2.2.2.2⟩

/-- Witness for `loop_detected_names_revisited_hop` on the two-router loop. -/
theorem loop_detected_names_revisited_hop_witness :
    tLoop.status = .loop_detected ∧
    (∃ dv c, tLoop.error_message = some (loopDetectedMessage dv c) ∧
      ∃ hp, hp ∈ tLoop.hops ∧ hopKey hp = (dv.management_ip, c)) ∧
    tLoop.hops.Pairwise (fun a b => hopKey a ≠ hopKey b) :=
  ⟨by decide,
    loop_detected_names_revisited_hop envLoop {} "10.1.1.10" "10.9.9.9"
      none none "tcp" 443 tLoop rfl (by decide)⟩

/-! ## C5: the hop limit -/

/-- C5: for every trace returned by `trace_path` under the configured limit
`max_hops` (default 30), the number of hops never exceeds `max_hops`, and a
walk cut off by the limit stops with status `max_hops_exceeded` and exactly
`max_hops` recorded hops. -/
theorem hop_count_within_max_hops
    (env : TraceEnv) (cfg : TraceConfig) (si di : String)
    (ic sd : Option String) (pr : String) (port : Nat) (T : TracePath)
    (hT : T = trace_path env cfg si di ic sd pr port) :
    T.hops.length ≤ cfg.max_hops ∧
    (T.status = .max_hops_exceeded → T.hops.length = cfg.max_hops) ∧
    ({} : TraceConfig).max_hops = 30 := by
  subst hT
  have h := trace_path_invariant env cfg si di ic sd pr port
  exact ⟨h.2.2.2.1, h.2.2.2.2.2.2.2.1, rfl⟩

/-- Witness for `hop_count_within_max_hops`: with `max_hops := 1` the loop
scenario is cut off after one hop with status `max_hops_exceeded`. -/
theorem hop_count_within_max_hops_witness :
    tMax.status = .max_hops_exceeded ∧ tMax.hops.length = 1 :=
  ⟨by decide,
    (hop_count_within_max_hops envLoop { max_hops := 1 } "10.1.1.10"
      "10.9.9.9" none none "tcp" 443 tMax rfl).2.1 (by decide)⟩

/-! ## C7: candidate lists in metadata -/

/-- C7 counterexample: a source IP matching no inventory device yields a
`needs_input` trace whose metadata candidate list is present but empty,
contrary to the claimed non-emptiness. -/
theorem needs_input_with_empty_candidates :
    tNeeds.status = .needs_input ∧
    tNeeds.metadata.candidates = some [] := by
  constructor <;> decide

/-- C7 (amended): every `ambiguous_hop` trace carries a non-empty candidate
list in its metadata; a `needs_input` trace carries a candidate list that is
empty exactly when the source IP resolved to no device, and non-empty (the
serialised ambiguous candidates) when it matched several. -/
theorem metadata_candidate_lists
    (env : TraceEnv) (cfg : TraceConfig) (si di : String)
    (ic sd : Option String) (pr : String) (port : Nat) (T : TracePath)
    (hT : T = trace_path env cfg si di ic sd pr port) :
    (T.status = .ambiguous_hop →
      ∃ cands, cands ≠ [] ∧
        T.metadata.candidates = some (serializeCandidates cands)) ∧
    (T.status = .needs_input →
      ((T.metadata.candidates = some [] ∧
          resolveDevice env.inventory si none = .notFound) ∨
       (∃ cs, resolveDevice env.inventory si none = .ambiguous cs ∧ cs ≠ [] ∧
          T.metadata.candidates = some (serializeCandidates cs)))) := by
  subst hT
  have h := trace_path_invariant env cfg si di ic sd pr port
  refine ⟨?_, h.2.2.2.2.2.2.2.2.2.1⟩
  intro ha
  obtain ⟨cands, h1, h2, _⟩ := h.2.2.2.2.2.2.2.2.1 ha
  exact ⟨cands, h1, h2⟩

/-- Witness for `metadata_candidate_lists` at the needs-input scenario. -/
theorem metadata_candidate_lists_witness :
    tNeeds.status = .needs_input ∧
    (tNeeds.metadata.candidates = some [] ∧
      resolveDevice envLoop.inventory "192.168.9.9" none = .notFound) ∨
    (∃ cs, resolveDevice envLoop.inventory "192.168.9.9" none = .ambiguous cs ∧
      cs ≠ [] ∧ tNeeds.metadata.candidates = some (serializeCandidates cs)) := by
  have h := (metadata_candidate_lists envLoop {} "192.168.9.9" "10.2.2.20"
    none none "tcp" 443 tNeeds rfl).2 (by decide)
  rcases h with h | h
  · exact Or.inl ⟨by decide, h⟩
  · exact Or.inr h

/-! ## C6: the trace record is always returned -/

/-- Oracle that always raises, modelling a failing driver. -/
def envErr : TraceEnv :=
  { inventory := invTwo,
    query := fun _ _ _ _ _ _ _ => .error "connection refused",
    elapsed_ms := 7 }

def tErr : TracePath :=
  trace_path envErr {} "10.0.0.1" "10.2.2.20" none (some "r1") "tcp" 443

/-- C6: `trace_path` always returns a trace record with the total elapsed
time set; any exception raised inside the walk is caught and surfaced as a
trace with status `error` carrying the exception message (the second
conjunct states this for an arbitrary raised exception, the third
instantiates it for a driver whose every query raises), and no exception
escapes (`trace_path` is a total function into `TracePath`). -/
theorem trace_always_returned_errors_caught
    (env : TraceEnv) (cfg : TraceConfig) (si di : String)
    (ic sd : Option String) (pr : String) (port : Nat) (T : TracePath)
    (hT : T = trace_path env cfg si di ic sd pr port) :
    T.total_time_ms = some env.elapsed_ms ∧
    (∀ e p, traceBody env cfg si di ic sd pr port (mkPath0 si di) =
        .error (e, p) →
      T.status = .error ∧ T.error_message = some e ∧ T.hops = p.hops) ∧
    (∀ e name d0, sd = some name → name ≠ "" →
      find_device_by_hostname env.inventory name = some d0 →
      (∀ dev w c ing, env.query dev w c ing pr port si = .error e) →
      1 ≤ cfg.max_hops →
      T.status = .error ∧ T.error_message = some e ∧ T.hops = []) := by
  refine ⟨?_, ?_, ?_⟩
  · subst hT
    exact (trace_path_invariant env cfg si di ic sd pr port).2.2.1
  · intro e p hb
    rw [hT, trace_path_eq_err env cfg si di ic sd pr port e p hb]
    exact ⟨rfl, rfl, rfl⟩
  · intro e name d0 hsd hname hfind hq hmax
    have htr : truthyStr sd = some name := by
      rw [hsd]
      simp [truthyStr, hname]
    have hbody : traceBody env cfg si di ic sd pr port (mkPath0 si di) =
        .error (e, mkPath0 si di) := by
      simp only [traceBody, htr, hfind, traceFrom]
      simp only [traceLoop]
      rw [if_neg (by simp), if_neg (by omega : ¬ 1 > cfg.max_hops), hq]
    rw [hT, trace_path_eq_err env cfg si di ic sd pr port e (mkPath0 si di) hbody]
    exact ⟨rfl, rfl, rfl⟩

/-- Witness for `trace_always_returned_errors_caught` with an
always-raising driver. -/
theorem trace_always_returned_errors_caught_witness :
    tErr.total_time_ms = some (7 : ℚ) ∧ tErr.status = .error ∧
    tErr.error_message = some "connection refused" ∧ tErr.hops = [] := by
  have h := trace_always_returned_errors_caught envErr {} "10.0.0.1"
    "10.2.2.20" none (some "r1") "tcp" 443 tErr rfl
  have h3 := h.2.2 "connection refused" "r1" devR1 rfl (by decide) (by decide)
    (fun _ _ _ _ => rfl) (by decide)
  exact ⟨h.1, h3.1, h3.2.1, h3.2.2⟩

/-! ## C4: site-affinity disambiguation -/

def devFw1 : NetworkDevice :=
  { hostname := "fw1", management_ip := "10.0.0.9", vendor := "cisco_ios",
    site := some "nyc", subnets := ["10.3.3.0/24"] }

def devR2a : NetworkDevice :=
  { hostname := "r2a", management_ip := "10.0.5.1", vendor := "cisco_ios",
    site := some "nyc", subnets := ["10.0.5.0/24"] }

def devR2b : NetworkDevice :=
  { hostname := "r2b", management_ip := "10.0.5.2", vendor := "cisco_ios",
    site := some "sfo", subnets := ["10.0.5.0/24"] }

def invSite : DeviceInventory := DeviceInventory.ofDevices [devFw1, devR2a, devR2b]

def rSiteNext : RouteEntry :=
  { destination := "0.0.0.0/0", next_hop := "10.0.5.5", next_hop_type := "ip",
    outgoing_interface := some "e1", protocol := "static" }

def rSiteConn : RouteEntry :=
  { destination := "10.7.7.0/24", next_hop := "10.7.7.7",
    next_hop_type := "connected", outgoing_interface := some "e2",
    protocol := "connected" }

/-- fw1 (site nyc) forwards to 10.0.5.5, owned by both r2a (nyc) and
r2b (sfo); the next device reports the destination directly connected. -/
def envSite : TraceEnv :=
  { inventory := invSite,
    query := fun d _ _ _ _ _ _ =>
      if d.management_ip == "10.0.0.9" then .ok { route := some rSiteNext }
      else .ok { route := some rSiteConn },
    elapsed_ms := 0 }

def tSite : TracePath :=
  trace_path envSite {} "10.3.3.3" "10.7.7.7" none none "tcp" 443

/-- C4 counterexample: in the literal site-affinity scenario (two owners of
the next-hop subnet, exactly one sharing the current device's site) the trace
proceeds through the same-site device r2a — but the resulting hop's
`resolve_status` field is `none`, not `resolved_by_site`: the orchestrator
never writes that field on any hop. -/
theorem site_resolution_leaves_resolve_status_unset :
    tSite.status = .complete ∧
    tSite.hops.length = 2 ∧
    (tSite.hops.getD 1 default).device.hostname = "r2a" ∧
    (tSite.hops.getD 1 default).resolve_status = none ∧
    ¬ (tSite.hops.getD 1 default).resolve_status = some "resolved_by_site" := by
  refine ⟨by decide, by decide, by decide, by decide, by decide⟩

/-- C4 (amended): when next-hop resolution yields multiple candidates and the
current hop's device has a (truthy) site tag, the candidates are filtered to
those with the same site tag: exactly one remaining is used as the next
device with the resolver reporting `resolvedBySite` — though the appended
hop's `resolve_status` field is left unset (`none`), as it is on every hop —
while zero remaining, or several remaining after filtering, stop the trace
with status `ambiguous_hop` carrying the (filtered, when non-empty)
serialised candidate list and the sequence number at which ambiguity
occurred (one past the recorded hops). -/
theorem site_affinity_disambiguation :
    (∀ (inv : DeviceInventory) (ip : String) (ph : PathHop) (st : String)
       (c1 c2 : NetworkDevice) (cs : List NetworkDevice),
      resolveCandidates inv ip = c1 :: c2 :: cs →
      ph.device.site = some st → st ≠ "" →
      ((∀ c, (c1 :: c2 :: cs).filter (fun c => c.site == some st) = [c] →
          resolveDevice inv ip (some ph) = .resolvedBySite c (c1 :: c2 :: cs)) ∧
       ((c1 :: c2 :: cs).filter (fun c => c.site == some st) = [] →
          resolveDevice inv ip (some ph) = .ambiguous (c1 :: c2 :: cs)) ∧
       (∀ f1 f2 fs,
          (c1 :: c2 :: cs).filter (fun c => c.site == some st) = f1 :: f2 :: fs →
          resolveDevice inv ip (some ph) = .ambiguous (f1 :: f2 :: fs)))) ∧
    (∀ (env : TraceEnv) (cfg : TraceConfig) (si di : String)
       (ic sd : Option String) (pr : String) (port : Nat) (T : TracePath),
      T = trace_path env cfg si di ic sd pr port →
      T.status = .ambiguous_hop →
      ∃ cands, cands ≠ [] ∧
        T.metadata.candidates = some (serializeCandidates cands) ∧
        T.metadata.ambiguous_hop_sequence = some (T.hops.length + 1)) ∧
    (∀ (env : TraceEnv) (cfg : TraceConfig) (si di : String)
       (ic sd : Option String) (pr : String) (port : Nat) (T : TracePath),
      T = trace_path env cfg si di ic sd pr port →
      ∀ hp, hp ∈ T.hops → hp.resolve_status = none) ∧
    (∀ (env : TraceEnv) (cfg : TraceConfig) (si di name pr : String)
       (port : Nat) (d0 c : NetworkDevice) (cands : List NetworkDevice)
       (qr qr2 : HopQueryResult) (r r2 : RouteEntry),
      truthyStr (some name) = some name →
      find_device_by_hostname env.inventory name = some d0 →
      2 ≤ cfg.max_hops →
      env.query d0 di d0.default_context none pr port si = .ok qr →
      qr.route = some r → qr.nat_result = none →
      r.is_destination_reached di = false →
      (r.next_hop_type == "null" || r.next_hop_type == "reject") = false →
      resolveDevice env.inventory r.next_hop
          (some (mkRouteHop 1 d0 none d0.default_context r qr)) =
        .resolvedBySite c cands →
      (([(d0.management_ip, d0.default_context)] : List (String × String)).contains
          (c.management_ip, determineNextContext d0.default_context c)) = false →
      env.query c di (determineNextContext d0.default_context c)
          r.outgoing_interface pr port si = .ok qr2 →
      qr2.route = some r2 → qr2.nat_result = none →
      r2.is_destination_reached di = true →
      (trace_path env cfg si di none (some name) pr port).status = .complete ∧
      (trace_path env cfg si di none (some name) pr port).hops.length = 2 ∧
      ((trace_path env cfg si di none (some name) pr port).hops.getD 1
        default).device = c ∧
      ((trace_path env cfg si di none (some name) pr port).hops.getD 1
        default).resolve_status = none) := by
  refine ⟨?_, ?_, ?_, ?_⟩
  · intro inv ip ph st c1 c2 cs hcs hsite hst
    refine ⟨?_, ?_, ?_⟩
    · intro c hf
      simp only [resolveDevice, hcs, hsite, if_neg hst, hf]
    · intro hf
      simp only [resolveDevice, hcs, hsite, if_neg hst, hf]
    · intro f1 f2 fs hf
      simp only [resolveDevice, hcs, hsite, if_neg hst, hf]
  · intro env cfg si di ic sd pr port T hT ha
    subst hT
    exact (trace_path_invariant env cfg si di ic sd pr port).2.2.2.2.2.2.2.2.1 ha
  · intro env cfg si di ic sd pr port T hT
    subst hT
    exact (trace_path_invariant env cfg si di ic sd pr port).2.2.2.2.1
  · intro env cfg si di name pr port d0 c cands qr qr2 r r2
      htr hfind hmax hq1 hr1 hnat1 hreach1 hnull1 hrd hvis2 hq2 hr2 hnat2 hreach2
    have hic : initialContext (none : Option String) d0 = d0.default_context := rfl
    have hd1 : hopDnatStep di (mkRouteHop 1 d0 none d0.default_context r qr) =
        di := by
      simp [hopDnatStep, mkRouteHop, hnat1]
    have hd2 : hopDnatStep di (mkRouteHop 2 c r.outgoing_interface
        (determineNextContext d0.default_context c) r2 qr2) = di := by
      simp [hopDnatStep, mkRouteHop, hnat2]
    obtain ⟨m, hm⟩ : ∃ m, cfg.max_hops = m + 1 + 1 := ⟨cfg.max_hops - 2, by omega⟩
    have hbody : traceBody env cfg si di none (some name) pr port
        (mkPath0 si di) =
        .ok { ((mkPath0 si di).add_hop
            (mkRouteHop 1 d0 none d0.default_context r qr)).add_hop
              (mkRouteHop 2 c r.outgoing_interface
                (determineNextContext d0.default_context c) r2 qr2) with
          status := PathStatus.complete } := by
      simp only [traceBody, htr, hfind, traceFrom, hic]
      simp only [traceLoop]
      rw [if_neg (by simp), if_neg (by omega : ¬ 1 > cfg.max_hops)]
      simp only [hq1, hr1, hd1]
      rw [if_neg (by simp [hreach1]), if_neg (by simp [hnull1])]
      simp only [hrd, hm]
      simp only [traceLoop]
      rw [if_neg (show ¬ _ = true from by rw [hvis2]; simp),
        if_neg (by omega : ¬ 2 > cfg.max_hops)]
      simp only [hq2, hr2, hd2]
      rw [if_pos hreach2]
    rw [trace_path_eq_ok env cfg si di none (some name) pr port _ hbody]
    exact ⟨rfl, rfl, rfl, rfl⟩

def qrFw : HopQueryResult := { route := some rSiteNext }

def qrConn : HopQueryResult := { route := some rSiteConn }

/-- Witness for `site_affinity_disambiguation` on the literal scenario:
fw1 (nyc) resolves next hop 10.0.5.5 — owned by r2a (nyc) and r2b (sfo) —
through r2a by site affinity, and the trace completes through it. -/
theorem site_affinity_disambiguation_witness :
    (trace_path envSite {} "10.3.3.3" "10.7.7.7" none (some "fw1") "tcp"
      443).status = .complete ∧
    (trace_path envSite {} "10.3.3.3" "10.7.7.7" none (some "fw1") "tcp"
      443).hops.length = 2 ∧
    ((trace_path envSite {} "10.3.3.3" "10.7.7.7" none (some "fw1") "tcp"
      443).hops.getD 1 default).device = devR2a ∧
    ((trace_path envSite {} "10.3.3.3" "10.7.7.7" none (some "fw1") "tcp"
      443).hops.getD 1 default).resolve_status = none :=
  site_affinity_disambiguation.2.2.2 envSite {} "10.3.3.3" "10.7.7.7" "fw1"
    "tcp" 443 devFw1 devR2a [devR2a, devR2b] qrFw qrConn rSiteNext rSiteConn
    (by decide) (by decide) (by decide) rfl rfl rfl (by decide)
    (by decide) (by decide) (by decide) rfl rfl rfl (by decide)

/-! ## C3 witness scenario: /24 beats /16 -/

def devA : NetworkDevice :=
  { hostname := "agg", management_ip := "10.0.1.1", vendor := "cisco_ios",
    subnets := ["10.0.0.0/16"] }

def devB : NetworkDevice :=
  { hostname := "leaf", management_ip := "10.0.1.2", vendor := "cisco_ios",
    subnets := ["10.0.0.0/24"] }

/-- Witness for `by_subnet_longest_match`: 10.0.0.5 is matched by both the
/16 of `agg` and the /24 of `leaf`; only the /24 owner is returned.  An IP in
no owned subnet returns the empty list. -/
theorem by_subnet_longest_match_witness :
    devB ∈ find_device_for_subnet (DeviceInventory.ofDevices [devA, devB])
      "10.0.0.5" ∧
    ¬ devA ∈ find_device_for_subnet (DeviceInventory.ofDevices [devA, devB])
      "10.0.0.5" ∧
    find_device_for_subnet (DeviceInventory.ofDevices [devA, devB])
      "99.9.9.9" = [] :=
  ⟨((by_subnet_longest_match [devA, devB] "10.0.0.5").1 devB).mpr
      ⟨by decide, "10.0.0.0/24", by decide, by decide, by decide⟩,
    fun hA =>
      by
        have h := ((by_subnet_longest_match [devA, devB] "10.0.0.5").1 devA).mp hA
        revert h
        decide,
    (by_subnet_longest_match [devA, devB] "99.9.9.9").2 (by decide)⟩

end PathTrace
